import Mathlib

/-!
Verification development for the HEO invoice system's bilingual PDF rendering
pipeline (`generate_pdf_bytes` in `app.py`, `generate_pdf` in
`streamlit-invoice-app/utils/pdf_utils.py`, `generate_professional_pdf` in
`frontend/utils/pdf_utils.py`).

The development shallowly embeds the three Python generators.  Python values
that flow through the invoice dictionaries are modelled by `PyVal`
(`None`/`int`/`float`/`str`); Python floats are modelled as rationals;
Python exceptions are modelled by the `Res` result monad; the ambient
environment (which optional libraries import successfully, which font and
logo files exist on disk, what `datetime.utcnow()` returns, what the
`arabic_reshaper`/`bidi` pipeline rewrites a string to) is an explicit
`Env` record.  ReportLab layout primitives (`Paragraph`, `Table`, `Spacer`,
`Image`) are modelled as pure block constructors recording their arguments.
-/

namespace HEO

/-! ### Characters and digit strings -/

/-- Is `c` one of the ASCII digits `0`..`9`? -/
def isDigitCh (c : Char) : Bool := 48 ≤ c.toNat && c.toNat ≤ 57

/-- ASCII whitespace, as stripped by Python `str.strip()` / `float()`.
(Python also strips a few rarer whitespace code points; they never occur in
the strings this development manipulates.) -/
def isSpaceCh (c : Char) : Bool := c == ' ' || c == '\t' || c == '\n' || c == '\r'

/-- Numeric value of an ASCII digit character. -/
def digitVal (c : Char) : Nat := c.toNat - 48

/-- The ASCII digit character for a value `0`..`9`. -/
def digitChar : Nat → Char
  | 0 => '0' | 1 => '1' | 2 => '2' | 3 => '3' | 4 => '4'
  | 5 => '5' | 6 => '6' | 7 => '7' | 8 => '8' | 9 => '9'
  | _ => '?'

/-- Value of a big-endian digit string. -/
def digitsVal (l : List Char) : Nat := l.foldl (fun a c => 10 * a + digitVal c) 0

/-- Big-endian decimal digits of `n` (empty for `n = 0`); the first argument
is structural fuel, always instantiated with a number at least `n`. -/
def natStrAux : Nat → Nat → List Char
  | 0, _ => []
  | _ + 1, 0 => []
  | fuel + 1, n + 1 => natStrAux fuel ((n + 1) / 10) ++ [digitChar ((n + 1) % 10)]

/-- Decimal rendering of a natural number, as Python `str` produces it. -/
def natStr (n : Nat) : String := if n = 0 then "0" else ⟨natStrAux n n⟩

/-- Decimal rendering of an integer, as Python `str` produces it. -/
def intStr (z : Int) : String :=
  if z < 0 then "-" ++ natStr z.natAbs else natStr z.natAbs

/-- `n` rendered in decimal and left-padded with zeros to `k` digits. -/
def padZeros (k n : Nat) : String :=
  ⟨List.replicate (k - (natStr n).data.length) '0' ++ (natStr n).data⟩

/-- Model of Python `str.strip()` on a character list. -/
def stripSpaces (l : List Char) : List Char :=
  ((l.dropWhile isSpaceCh).reverse.dropWhile isSpaceCh).reverse

/-- Does `pat` occur at the very front of the second list? -/
def leadsWith : List Char → List Char → Bool
  | [], _ => true
  | _ :: _, [] => false
  | p :: ps, c :: cs => p == c && leadsWith ps cs

/-- Worker for `replChars`: replaces non-overlapping occurrences of `pat`
left to right, exactly as Python `str.replace`.  The `Nat` argument is
structural fuel, always instantiated with the length of the list. -/
def replAux (pat rep : List Char) : Nat → List Char → List Char
  | 0, l => l
  | _ + 1, [] => []
  | fuel + 1, c :: rest =>
    if !pat.isEmpty && leadsWith pat (c :: rest) then
      rep ++ replAux pat rep fuel (List.drop (pat.length - 1) rest)
    else
      c :: replAux pat rep fuel rest

/-- Model of Python `str.replace` (all non-overlapping occurrences,
scanning left to right) on character lists, for a non-empty pattern. -/
def replChars (pat rep l : List Char) : List Char := replAux pat rep l.length l

/-- Model of Python `s.replace(pat, rep)` for a non-empty `pat`. -/
def pyRepl (s pat rep : String) : String := ⟨replChars pat.data rep.data s.data⟩

/-- Model of Python `s.strip()`. -/
def pyStrip (s : String) : String := ⟨stripSpaces s.data⟩

/-! ### Model of Python `float(string)`

Parses an optional sign, an integer part, an optional fractional part and
an optional exponent, after stripping surrounding whitespace — the grammar
accepted by Python `float()`.  (`inf`/`nan` literals and digit-group
underscores are not modelled; no input considered in this development uses
them.) -/

/-- A non-empty all-digit exponent suffix. -/
def parseExpDigits (l : List Char) : Option Int :=
  if !l.isEmpty && l.all isDigitCh then some (digitsVal l : Int) else none

/-- Exponent with optional sign. -/
def parseExpChars : List Char → Option Int
  | '+' :: r => parseExpDigits r
  | '-' :: r => (parseExpDigits r).map (fun z => -z)
  | r => parseExpDigits r

/-- After the mantissa: either end of input or an `e`/`E` exponent. -/
def contExp (mant : ℚ) : List Char → Option ℚ
  | [] => some mant
  | 'e' :: r => (parseExpChars r).map (fun z => mant * (10 : ℚ) ^ z)
  | 'E' :: r => (parseExpChars r).map (fun z => mant * (10 : ℚ) ^ z)
  | _ => none

/-- Unsigned float literal: `digits`, `digits.digits`, `.digits` or
`digits.`, each with an optional exponent. -/
def parseUnsignedChars (l : List Char) : Option ℚ :=
  match l.dropWhile isDigitCh with
  | '.' :: r2 =>
    if (l.takeWhile isDigitCh).isEmpty && (r2.takeWhile isDigitCh).isEmpty then none
    else
      contExp ((digitsVal (l.takeWhile isDigitCh) : ℚ)
          + (digitsVal (r2.takeWhile isDigitCh) : ℚ) / (10 : ℚ) ^ (r2.takeWhile isDigitCh).length)
        (r2.dropWhile isDigitCh)
  | r1 =>
    if (l.takeWhile isDigitCh).isEmpty then none
    else contExp (digitsVal (l.takeWhile isDigitCh) : ℚ) r1

/-- Optionally signed float literal. -/
def parseSignedChars : List Char → Option ℚ
  | '+' :: r => parseUnsignedChars r
  | '-' :: r => (parseUnsignedChars r).map (fun q => -q)
  | l => parseUnsignedChars l

/-- Model of Python `float(s)` for a string argument: strips surrounding
whitespace, then parses a float literal; `none` models the `ValueError`. -/
def parsePyFloat (s : String) : Option ℚ := parseSignedChars (stripSpaces s.data)

/-! ### Model of Python float formatting `f"{x:,.2f}"` -/

/-- The number of cents: `x` rounded to two decimal places, times 100.
Python formats the shortest-representation double with round-half-even;
rounding direction differs from this model only on exact half-cent values,
which never arise in the claims below. -/
def cents (q : ℚ) : ℤ := ⌊q * 100 + 1 / 2⌋

/-- Insert a comma after every three characters of a reversed digit list. -/
def commaRev : List Char → List Char
  | a :: b :: c :: d :: rest => a :: b :: c :: ',' :: commaRev (d :: rest)
  | l => l

/-- Insert thousands separators into a big-endian digit list. -/
def commaGroup (l : List Char) : List Char := (commaRev l.reverse).reverse

/-- Format `m` cents as `d,ddd.dd`. -/
def fmtN (m : Nat) : String :=
  ⟨commaGroup (natStr (m / 100)).data⟩ ++ "." ++ padZeros 2 (m % 100)

/-- Model of Python `f"{q:,.2f}"`: thousands separators and exactly two
decimal places. -/
def fmt2 (q : ℚ) : String :=
  if cents q < 0 then "-" ++ fmtN (cents q).natAbs else fmtN (cents q).toNat

/-! ### Model of Python `str(float)` -/

/-- The least `k` with `10^k` divisible by `q.den`, when one exists below
the searched bound; for every value that arises as a Python float the
denominator is a power of two and the search succeeds. -/
def decExpFind (q : ℚ) : Option Nat :=
  (List.range (q.den + 1)).find? (fun k => 10 ^ k % q.den == 0)

/-- Model of Python `str()` on a float: the shortest decimal form, with at
least one digit on each side of the point (`str(100.0) = "100.0"`,
`str(1234.5) = "1234.5"`).  Rationals that are not finite decimals do not
arise as Python floats; they render as `num/den`, which no claim relies
on. -/
def pyStrOfRat (q : ℚ) : String :=
  match decExpFind q with
  | some k =>
    if k = 0 then
      (if q.num < 0 then "-" else "")
        ++ natStr (q.num * (10 : ℤ) ^ k / (q.den : ℤ)).natAbs ++ ".0"
    else
      (if q.num < 0 then "-" else "")
        ++ natStr ((q.num * (10 : ℤ) ^ k / (q.den : ℤ)).natAbs / 10 ^ k)
        ++ "." ++ padZeros k ((q.num * (10 : ℤ) ^ k / (q.den : ℤ)).natAbs % 10 ^ k)
  | none => intStr q.num ++ "/" ++ natStr q.den

/-! ### Python values, truthiness and exceptions -/

/-- Values that flow through the invoice dictionaries: `None`, ints,
floats (as rationals) and strings.  A structure field holding
`PyVal.none` models the corresponding dictionary key being absent (the
generators treat an absent key and a `None` value identically on every
path they exercise). -/
inductive PyVal where
  | none : PyVal
  | int (z : ℤ) : PyVal
  | num (q : ℚ) : PyVal
  | str (s : String) : PyVal
deriving DecidableEq

/-- Python truthiness: `None`, `0`, `0.0` and `""` are falsy. -/
def truthy : PyVal → Bool
  | .none => false
  | .int z => z != 0
  | .num q => q != 0
  | .str s => !s.isEmpty

/-- Python `a or b` (short-circuit, value-returning). -/
def pyOr (a b : PyVal) : PyVal := if truthy a then a else b

/-- Python `d.get(key, default)`: the stored value when the key is
present, else the default. -/
def pyGetD (v d : PyVal) : PyVal :=
  match v with
  | .none => d
  | w => w

/-- Model of Python `str(x)`. -/
def pyStr : PyVal → String
  | .none => "None"
  | .int z => intStr z
  | .num q => pyStrOfRat q
  | .str s => s

/-- The Python exceptions the embedded code can raise. -/
inductive PyErr where
  | valueError : PyErr
  | typeError : PyErr
  | nameError : PyErr
  | importError : PyErr
deriving DecidableEq

/-- Result of running a piece of Python code: a value, or a raised
exception. -/
inductive Res (α : Type) where
  | ok (a : α) : Res α
  | exn (e : PyErr) : Res α
deriving DecidableEq

/-- Model of Python `float(x)`: exact for ints and floats, parses strings,
raises `TypeError` on `None`. -/
def pyFloatRes : PyVal → Res ℚ
  | .none => .exn .typeError
  | .int z => .ok (z : ℚ)
  | .num q => .ok q
  | .str s =>
    match parsePyFloat s with
    | some q => .ok q
    | Option.none => .exn .valueError

/-! ### Environment for `app.py` -/

/-- The ambient state `generate_pdf_bytes` (app.py) observes: which imports
succeeded, which font/logo files exist, the PIL-reported logo aspect ratio,
whether the final `doc.build` call raises, today's UTC date string, and the
result of the `arabic_reshaper.reshape`/`bidi.get_display` pipeline
(`Option.none` models that pipeline raising, which the code catches). -/
structure Env where
  reportlab : Bool
  platypus : Bool
  hasReshaper : Bool
  hasGetDisplay : Bool
  shapeFn : String → Option String
  robotoReg : Bool
  robotoBold : Bool
  tajawal : Bool
  logoExists : Bool
  pil : Bool
  logoAspect : ℚ
  buildRaises : Bool
  today : String

/-- Embedding of `_shape_text_for_pdf` (app.py lines 321–330): coerce to
`str`; when `rtl` and the reshaping capability is present, reshape and
reorder, falling back to the unshaped text if that raises; otherwise return
the text unchanged. -/
def shapeApp (env : Env) (v : PyVal) (rtl : Bool) : String :=
  let text := pyStr v
  if rtl && env.hasReshaper && env.hasGetDisplay then
    match env.shapeFn text with
    | some s => s
    | none => text
  else text

/-- Embedding of the `currency` helper closed over `out_lang` (app.py lines
420–437): coerce to `str`, strip `LE`/`EGP` markers and surrounding
whitespace, reformat as a thousands-separated two-decimal number when the
comma-free remainder parses as a float, and append the styled `LE` token
(shaped and placed after the number for Arabic).  The outer
`try`/`except` of the source can never fire in this model because every
step here is total. -/
def currency (env : Env) (isAr : Bool) (val : PyVal) : String :=
  let v0 := pyStrip (pyRepl (pyRepl (pyStr val) "LE" "") "EGP" "")
  let v1 :=
    match parsePyFloat (pyRepl v0 "," "") with
    | some f => fmt2 f
    | none => v0
  if isAr then
    shapeApp env (.str v1) true ++ " <font color=\x27#3880fa\x27><b>"
      ++ shapeApp env (.str "LE") true ++ "</b></font>"
  else
    v1 ++ " <font color=\x27#3880fa\x27><b>LE</b></font>"

/-! ### Invoice records and line items -/

/-- A line item as supplied by the caller; each field is a dictionary
entry, `PyVal.none` modelling an absent key. -/
structure RawItem where
  description : PyVal := .none
  desc : PyVal := .none
  quantity : PyVal := .none
  qty : PyVal := .none
  price : PyVal := .none
  unit : PyVal := .none
  total : PyVal := .none
  code : PyVal := .none
deriving DecidableEq

/-- The caller-supplied invoice record (`invoice_data`), restricted to the
keys the generators read. -/
structure InvoiceData where
  invoice_type : PyVal := .none
  client_name : PyVal := .none
  client_ref : PyVal := .none
  client_id : PyVal := .none
  client_phone : PyVal := .none
  client_country : PyVal := .none
  currency : PyVal := .none
  items : List RawItem := []
  subtotal : PyVal := .none
  total : PyVal := .none
  tax : PyVal := .none
  discount : PyVal := .none
  date : PyVal := .none
  agent_name : PyVal := .none
  seller_sign : PyVal := .none
  notes : PyVal := .none
  client_address : PyVal := .none
  id : PyVal := .none
deriving DecidableEq

/-- A normalized item, as built by app.py lines 501–514. -/
structure NormItem where
  code : PyVal
  desc : PyVal
  qty : PyVal
  unit : PyVal
  total : PyVal
deriving DecidableEq

/-- Embedding of the item-normalization loop body (app.py lines 501–514):
accept `description`/`desc`, `quantity`/`qty`, `price`/`unit`; keep a
truthy supplied `total`, else compute `float(qty or 0) * float(unit or 0)`.
The two `float` calls are evaluated outside any `try`, so an unparsable
quantity or unit price raises. -/
def normItem (it : RawItem) : Res NormItem :=
  let desc := pyOr it.description (pyOr it.desc (.str ""))
  let qty := pyOr it.quantity (pyOr it.qty (.int 0))
  let unit := pyOr it.price (pyOr it.unit (.int 0))
  let code := pyOr it.code (.str "")
  if truthy it.total then .ok ⟨code, desc, qty, unit, it.total⟩
  else
    match pyFloatRes (pyOr qty (.int 0)) with
    | .exn e => .exn e
    | .ok q =>
      match pyFloatRes (pyOr unit (.int 0)) with
      | .exn e => .exn e
      | .ok u => .ok ⟨code, desc, qty, unit, .num (q * u)⟩

/-- The item-normalization loop: raises at the first bad item, exactly as
the Python `for` loop does. -/
def normItems : List RawItem → Res (List NormItem)
  | [] => .ok []
  | it :: rest =>
    match normItem it with
    | .exn e => .exn e
    | .ok n =>
      match normItems rest with
      | .exn e => .exn e
      | .ok ns => .ok (n :: ns)

/-! ### Totals (app.py lines 516–532) -/

/-- `sum(float(it.get("total", 0) or 0) for it in items)` over the
normalized items: raises at the first unparsable total. -/
def sumItemTotals : List NormItem → Res ℚ
  | [] => .ok 0
  | it :: rest =>
    match pyFloatRes (pyOr it.total (.int 0)) with
    | .exn e => .exn e
    | .ok v =>
      match sumItemTotals rest with
      | .exn e => .exn e
      | .ok s => .ok (v + s)

/-- Embedding of the `subtotal` computation: `float(subtotal-field or
item-sum)`, falling back to `float(total-field or 0)` when that raises,
and to `0.0` when the fallback raises too. -/
def subtotalOf (d : InvoiceData) (items : List NormItem) : ℚ :=
  let first : Res ℚ :=
    if truthy d.subtotal then pyFloatRes d.subtotal else sumItemTotals items
  match first with
  | .ok s => s
  | .exn _ =>
    match pyFloatRes (pyOr d.total (.int 0)) with
    | .ok s => s
    | .exn _ => 0

/-- Embedding of the `tax` computation: `float(get("tax", 0) or 0)`,
defaulting to `0.0` on any exception. -/
def taxOf (d : InvoiceData) : ℚ :=
  match pyFloatRes (pyOr (pyGetD d.tax (.int 0)) (.int 0)) with
  | .ok t => t
  | .exn _ => 0

/-- Embedding of the `discount` computation, symmetric to `taxOf`. -/
def discountOf (d : InvoiceData) : ℚ :=
  match pyFloatRes (pyOr (pyGetD d.discount (.int 0)) (.int 0)) with
  | .ok t => t
  | .exn _ => 0

/-! ### ReportLab blocks (modelled as pure constructors) -/

/-- A cell of a platypus `Table`: a `Paragraph` (recording the value the
source passes, string-coerced exactly where the source interpolates into an
f-string and raw where it passes the object), a raw value, an `Image`, or
a `Spacer`. -/
inductive PCell where
  | par (text : PyVal) (style : String) : PCell
  | raw (v : PyVal) : PCell
  | image (w h : ℚ) : PCell
  | spacer (h : ℚ) : PCell
deriving DecidableEq

/-- A top-level flowable appended to `elements`. -/
inductive Elem where
  | table (tag : String) (rows : List (List PCell)) : Elem
  | par (text : PyVal) (style : String) : Elem
  | spacer (w h : ℚ) : Elem
deriving DecidableEq

/-- The built document: the single font pair registered for the whole
render call, and the flowable list handed to `doc.build`. -/
structure Doc where
  font : String
  fontB : String
  elements : List Elem
deriving DecidableEq

/-- What the generator hands back: a plain-text fallback (encoded to
UTF-8) or a built PDF document. -/
inductive Output where
  | textBytes (s : String) : Output
  | pdfDoc (d : Doc) : Output
deriving DecidableEq

/-- Byte encoding of a string, one entry per character (a simplification
of UTF-8 that preserves emptiness and prefixes, the only facts used). -/
def strBytes (s : String) : List Nat := s.data.map Char.toNat

/-- Modelled from the spec: ReportLab's serialization of a built document
(`doc.build` + `buffer.getvalue()`, external library code not in `src/`)
yields a byte stream that starts with the PDF header and is therefore
never empty. -/
def Output.bytes : Output → List Nat
  | .textBytes s => strBytes s
  | .pdfDoc d => strBytes "%PDF-1.4\n" ++ strBytes d.font ++ List.replicate d.elements.length 10

/-! ### `generate_pdf_bytes` (app.py lines 340–743) -/

/-- Embedding of the font-selection block (app.py lines 384–400): Roboto
regular+bold when both files exist, else Tajawal for Arabic when its file
exists, else Helvetica.  Registration of an existing font file is modelled
as succeeding, so the surrounding `try`/`except` never fires. -/
def selectFont (env : Env) (isAr : Bool) : String × String :=
  if env.robotoReg && env.robotoBold then ("Roboto", "Roboto-Bold")
  else if isAr && env.tajawal then ("Tajawal", "Tajawal")
  else ("Helvetica", "Helvetica-Bold")

/-- Embedding of `get_logo_image` (app.py lines 402–418): an `Image` sized
from the PIL aspect ratio when available, a fixed-width `Image` otherwise,
and a `Spacer` when the logo file is absent. -/
def getLogoCell (env : Env) (maxH : ℚ) : PCell :=
  if env.logoExists then
    if env.pil then .image ((⌊maxH * env.logoAspect⌋ : ℤ) : ℚ) maxH
    else .image ((⌊maxH * (5 / 2)⌋ : ℤ) : ℚ) maxH
  else .spacer maxH

/-- Simplified model of `json.dumps(invoice_data, ...)` in the fallback
strings: a rendering of the record's fields.  Its exact text is irrelevant
to every claim (only the fixed prefix and non-emptiness of the fallback
strings are ever used). -/
def dumpRawItem (it : RawItem) : String :=
  pyStr it.description ++ "|" ++ pyStr it.desc ++ "|" ++ pyStr it.quantity ++ "|"
    ++ pyStr it.qty ++ "|" ++ pyStr it.price ++ "|" ++ pyStr it.unit ++ "|"
    ++ pyStr it.total ++ "|" ++ pyStr it.code

/-- See `dumpRawItem`. -/
def dumpInvoice (d : InvoiceData) : String :=
  pyStr d.invoice_type ++ "," ++ pyStr d.client_name ++ "," ++ pyStr d.subtotal ++ ","
    ++ pyStr d.total ++ "," ++ pyStr d.tax ++ "," ++ pyStr d.discount ++ ","
    ++ pyStr d.date ++ "," ++ String.intercalate ";" (d.items.map dumpRawItem)

/-- The `reportlab`-missing / import-failure fallback text (app.py lines
348 and 366). -/
def fallbackText (d : InvoiceData) : String :=
  "Invoice (fallback)\n\n" ++ dumpInvoice d

/-- The final-serialization fallback text (app.py line 742). -/
def failText (d : InvoiceData) : String :=
  "Invoice (generation failed)\n\n" ++ dumpInvoice d

/-- Localize a static label: the Arabic path shapes it, the English path
passes the literal through (the pervasive
`local_s(x) if out_lang == 'ar' else x` pattern). -/
def lbl (env : Env) (isAr : Bool) (s : String) : String :=
  if isAr then shapeApp env (.str s) true else s

/-- The company constants block (app.py lines 473–482). -/
def companyName : String := "EL HEKMA ENGINEERING OFFICE Co."

/-- The date string used in the client panel and the seller box:
`invoice_data.get('date', datetime.utcnow().strftime('%Y-%m-%d'))`,
f-string coerced. -/
def dateStr (env : Env) (d : InvoiceData) : String :=
  pyStr (pyGetD d.date (.str env.today))

/-- The net-total table (app.py lines 691–704): bold label and the
doubly-formatted net amount `currency(f"LE{net:,.2f}")`. -/
def netTableElem (env : Env) (isAr : Bool) (net : ℚ) : Elem :=
  .table "net_total"
    [[.par (.str ("<b>" ++ lbl env isAr "NET TOTAL:" ++ "</b>")) "net",
      .par (.str ("<b>" ++ currency env isAr (.str ("LE" ++ fmt2 net)) ++ "</b>")) "net"]]

/-- The totals table (app.py lines 670–688). -/
def totalsTableElem (env : Env) (isAr : Bool) (sub tax disc : ℚ) : Elem :=
  .table "totals"
    [[.par (.str (lbl env isAr "Sub-Total:")) "tl",
      .par (.str (currency env isAr (.str ("LE" ++ fmt2 sub)))) "tc"],
     [.par (.str (lbl env isAr "Sales (18%):")) "tl",
      .par (.str (currency env isAr (.str ("LE" ++ fmt2 tax)))) "tc"],
     [.par (.str (lbl env isAr "Discount (0%):")) "tl",
      .par (.str (currency env isAr (.str ("LE" ++ fmt2 disc)))) "tc"]]

/-- One body row of the items table (app.py lines 640–648). -/
def itemRowElem (env : Env) (isAr : Bool) (idx : Nat) (it : NormItem) : List PCell :=
  [.raw (.str (natStr idx)),
   .raw it.code,
   .par (if isAr then .str (shapeApp env it.desc true) else pyOr it.desc (.str "")) "tl",
   .raw (.str (pyStr it.qty)),
   .par (.str (currency env isAr it.unit)) "tc",
   .par (.str (currency env isAr it.total)) "tc"]

/-- The items table with its localized header row (app.py lines 627–663). -/
def itemsTableElem (env : Env) (isAr : Bool) (items : List NormItem) : Elem :=
  .table "items"
    ([[.par (.str (lbl env isAr "#")) "th", .par (.str (lbl env isAr "Code")) "th",
       .par (.str (lbl env isAr "Description")) "th",
       .par (.str (lbl env isAr "Quantity")) "th",
       .par (.str (lbl env isAr "Unit Price")) "th",
       .par (.str (lbl env isAr "Total Price")) "th"]]
      ++ (List.enumFrom 1 items).map (fun p => itemRowElem env isAr p.1 p.2))

/-- The client-info table (app.py lines 608–624); every interpolation is
f-string coerced. -/
def infoTableElem (env : Env) (isAr : Bool) (d : InvoiceData) : Elem :=
  let client_name := pyOr d.client_name (.str "")
  let client_ref := pyOr d.client_ref (pyOr d.client_id (.str ""))
  let client_tel := pyOr d.client_phone (.str "")
  let client_country := pyOr d.client_country (.str "")
  let client_cur := pyOr d.currency (.str "EGP")
  .table "info"
    [[.par (.str ("<b>" ++ lbl env isAr "Client" ++ ":</b> "
        ++ (if isAr then shapeApp env client_name true else pyStr client_name))) "tl",
      .par (.str ("<b>" ++ lbl env isAr "Date" ++ ":</b> " ++ dateStr env d)) "tl",
      .par (.str ("<b>" ++ lbl env isAr "Ref. No." ++ ":</b> "
        ++ (if isAr then shapeApp env (.str (pyStr client_ref)) true
            else pyStr client_ref))) "tl"],
     [.par (.str ("<b>" ++ lbl env isAr "Tel" ++ ":</b> " ++ pyStr client_tel)) "tl",
      .par (.str ("<b>" ++ lbl env isAr "Country" ++ ":</b> " ++ pyStr client_country)) "tl",
      .par (.str ("<b>" ++ lbl env isAr "Currency" ++ ":</b> " ++ pyStr client_cur)) "tl"]]

/-- The company header table (app.py lines 563–585); the five header
paragraphs are modelled as one concatenated text cell, a flattening no
claim inspects. -/
def headerTableElem (env : Env) (isAr : Bool) : Elem :=
  .table "company"
    [[getLogoCell env 40,
      .par (.str ("<b>" ++ lbl env isAr companyName ++ "</b>\n"
        ++ lbl env isAr "For Medical Devices & Supplies AND Professional Engineering Solutions"
        ++ "\n<b>" ++ lbl env isAr "ADDRESS" ++ ":</b> "
        ++ lbl env isAr "41 Al-Mawardi Street, Al-Qasr Al-Aini, Cairo, Egypt"
        ++ "\n<b>" ++ lbl env isAr "TEL" ++ ":</b> +201026531004 / +201147304880    <b>"
        ++ lbl env isAr "FAX" ++ ":</b> +2027932115"
        ++ "\n<b>" ++ lbl env isAr "EMAIL" ++ ":</b> info@heomed.com    <b>"
        ++ lbl env isAr "WEB" ++ ":</b> www.heomed.com")) "hdr"]]

/-- The seller box (app.py lines 707–722). -/
def sellerBoxElem (env : Env) (isAr : Bool) (d : InvoiceData) : Elem :=
  let sign := pyOr d.agent_name (pyOr d.seller_sign (.str ""))
  .table "seller"
    [[.par (.str ("<b>" ++ lbl env isAr "THE SELLER" ++ "</b>")) "sl"],
     [.par (.str (lbl env isAr companyName)) "sv"],
     [.par (.str (lbl env isAr "Signature" ++ ": <b>"
        ++ (if isAr then shapeApp env sign true else pyStr sign) ++ "</b>")) "sv"],
     [.par (.str (lbl env isAr "Date" ++ ": " ++ dateStr env d)) "sv"]]

/-- The full flowable list, in the order app.py appends it; each guarded
append is modelled as succeeding (the guarded constructors are pure
here). -/
def buildElements (env : Env) (isAr : Bool) (title : PyVal) (d : InvoiceData)
    (items : List NormItem) (sub tax disc net : ℚ) : List Elem :=
  [headerTableElem env isAr,
   .spacer 1 13,
   .table "banner" [[.par (if isAr then .str (shapeApp env title true) else title) "h1"]],
   .spacer 1 6,
   infoTableElem env isAr d,
   .spacer 1 13,
   itemsTableElem env isAr items,
   .spacer 1 13,
   totalsTableElem env isAr sub tax disc,
   .spacer 1 10,
   netTableElem env isAr net,
   .spacer 1 13,
   sellerBoxElem env isAr d,
   .spacer 1 10,
   .par (.str (lbl env isAr "This is an electronic invoice. Powered by HEO Systems.")) "footer"]

/-- The resolved title (app.py lines 486–487): `invoice_type` if truthy,
else a language-specific default; every language except `"en"` passes the
resolved value through `local_s` (which `str`-coerces), while `"en"` keeps
the raw value. -/
def titleExpr (env : Env) (d : InvoiceData) (lang : String) : PyVal :=
  if lang == "en" then
    pyOr d.invoice_type
      (.str (if lang == "ar" then shapeApp env (.str "فاتورة") true else "Invoice"))
  else
    .str (shapeApp env
      (pyOr d.invoice_type
        (.str (if lang == "ar" then shapeApp env (.str "فاتورة") true else "Invoice")))
      (lang == "ar"))

/-- Embedding of `generate_pdf_bytes(invoice_data, out_lang)` (app.py
lines 340–743).  Returns the plain-text fallback when ReportLab or its
submodule imports are unavailable; propagates the exception raised by the
unguarded item-normalization loop; otherwise builds the document, falling
back to the failure text when the final `doc.build` raises.  (The source
computes fonts and title before normalizing items; every step is pure, so
the order of these computations is immaterial.) -/
def generate_pdf_bytes (env : Env) (d : InvoiceData) (lang : String) : Res Output :=
  if env.reportlab = false then .ok (.textBytes (fallbackText d))
  else if env.platypus = false then .ok (.textBytes (fallbackText d))
  else
    match normItems d.items with
    | .exn e => .exn e
    | .ok items =>
      if env.buildRaises then .ok (.textBytes (failText d))
      else .ok (.pdfDoc
        ⟨(selectFont env (lang == "ar")).1, (selectFont env (lang == "ar")).2,
         buildElements env (lang == "ar") (titleExpr env d lang) d items
           (subtotalOf d items) (taxOf d) (discountOf d)
           (subtotalOf d items + taxOf d - discountOf d)⟩)

/-! ### `generate_pdf` (streamlit-invoice-app/utils/pdf_utils.py) -/

/-- Embedding of the module-level `_shape_text_for_pdf` of
`streamlit-invoice-app/utils/pdf_utils.py` (lines 76–85).  The names
`arabic_reshaper` and `get_display` it references are bound only inside
`generate_pdf`'s local scope (its `import` statements are function-local),
so the module's global namespace never defines them: evaluating the
condition's second operand raises `NameError` whenever `rtl` is truthy;
with `rtl` falsy the `and` short-circuits and the text is returned. -/
def shapeSL (text : PyVal) (rtl : Bool) : Res String :=
  let t := pyStr text
  if rtl then .exn .nameError else .ok t

/-- The record fields `generate_pdf` reads. -/
structure SLInvoice where
  logo : PyVal := .none
  title : PyVal := .none
  client_name : PyVal := .none
  date : PyVal := .none
  invoice_number : PyVal := .none
  items : List RawItem := []
  total : PyVal := .none
deriving DecidableEq

/-- Environment for `generate_pdf`: whether its unguarded top-level imports
(reportlab, arabic_reshaper, bidi) succeed, and whether the logo file
exists (its drawing is guarded and modelled as succeeding). -/
structure SLEnv where
  reportlab : Bool
  reshaperModule : Bool
  bidiModule : Bool
  logoExists : Bool
deriving DecidableEq

/-- The fixed company header lines (pdf_utils.py lines 21–28). -/
def slCompanyLines : List String :=
  ["HEO",
   "ADDRESS : 41 Al-Mawardi Street, Al-Qasr Al-Aini, Cairo, Egypt",
   "Tel: +201026531004 / +201147304880",
   "Fax: +2027932115",
   "Email : info@heomed.com",
   "Web Site : www.heomed.com"]

/-- Run a fallible step over each element, stopping at the first raised
exception, exactly as a Python `for` loop does. -/
def resMapList {α β : Type} (f : α → Res β) : List α → Res (List β)
  | [] => .ok []
  | a :: rest =>
    match f a with
    | .exn e => .exn e
    | .ok b =>
      match resMapList f rest with
      | .exn e => .exn e
      | .ok bs => .ok (b :: bs)

/-- One drawn item line of `generate_pdf`'s table (lines 55–64): the
description is shaped, the numbers pass through `str`. -/
def slItemLine (it : RawItem) (rtl : Bool) : Res String :=
  match shapeSL (pyOr it.description (.str "")) rtl with
  | .exn e => .exn e
  | .ok dsc =>
    .ok (dsc ++ " | " ++ pyStr (pyGetD it.quantity (.str "")) ++ " | "
      ++ pyStr (pyGetD it.price (.str "")) ++ " | " ++ pyStr (pyGetD it.total (.str "")))

/-- The canvas drawing body of `generate_pdf` (everything inside its
`try`, lines 11–72), as the sequence of drawn strings.  Pagination
(`showPage` on overflow) affects only geometry, not the drawn text, and is
not modelled. -/
def slBody (d : SLInvoice) (rtl : Bool) : Res (List String) :=
  match resMapList (fun s => shapeSL (.str s) rtl) slCompanyLines with
  | .exn e => .exn e
  | .ok company =>
    match shapeSL (pyGetD d.title (.str "Quotation Invoice / عرض سعر")) rtl with
    | .exn e => .exn e
    | .ok title =>
      match shapeSL (.str ("Client: " ++ pyStr (pyOr d.client_name (.str "")))) rtl with
      | .exn e => .exn e
      | .ok meta1 =>
        match shapeSL (.str ("Date: " ++ pyStr (pyGetD d.date (.str "")))) rtl with
        | .exn e => .exn e
        | .ok meta2 =>
          match shapeSL (.str ("Invoice #: " ++ pyStr (pyOr d.invoice_number (.str "")))) rtl with
          | .exn e => .exn e
          | .ok meta3 =>
            match resMapList (fun s => shapeSL (.str s) rtl)
                [("Item" : String), "Qty", "Price", "Total"] with
            | .exn e => .exn e
            | .ok hdr =>
              match resMapList (fun it => slItemLine it rtl) d.items with
              | .exn e => .exn e
              | .ok rows =>
                match shapeSL (.str ("Total: " ++ pyStr (pyGetD d.total (.str "")))) rtl with
                | .exn e => .exn e
                | .ok totalLine =>
                  .ok (company ++ [title, meta1, meta2, meta3] ++ hdr ++ rows ++ [totalLine])

/-- Modelled from the spec: the byte stream `canvas.save()` +
`buf.getvalue()` produce (ReportLab internals, not in `src/`) — a
PDF-header-prefixed encoding of the drawn content, never empty. -/
def slBytes (lines : List String) : List Nat :=
  strBytes "%PDF-1.4\n" ++ (lines.map strBytes).flatten

/-- Embedding of `generate_pdf(invoice_data, rtl)` of
`streamlit-invoice-app/utils/pdf_utils.py` (lines 1–74): the top-level
imports are outside the `try` and propagate `ImportError`; every exception
inside the drawing body is caught and turned into `return b""` — the empty
byte string. -/
def generate_pdf (env : SLEnv) (d : SLInvoice) (rtl : Bool) : Res (List Nat) :=
  if env.reportlab = false || env.reshaperModule = false || env.bidiModule = false then
    .exn .importError
  else
    match slBody d rtl with
    | .ok lines => .ok (slBytes lines)
    | .exn _ => .ok []

/-! ### `generate_professional_pdf` (frontend/utils/pdf_utils.py) -/

/-- Environment for `generate_professional_pdf`: whether ReportLab
imports succeed, whether `arabic_reshaper`/`bidi` import successfully
inside the `language == 'ar'` branch, the shaping pipeline, and whether
the final `doc.build` raises. -/
structure ProfEnv where
  reportlab : Bool
  reshaper : Bool
  shapeFn : String → String
  buildRaises : Bool

/-- The record fields `generate_professional_pdf` reads. -/
structure ProfInvoice where
  id : PyVal := .none
  client_name : PyVal := .none
  client_address : PyVal := .none
  items : List RawItem := []
  invoice_type : PyVal := .none
  date : PyVal := .none
  currency : PyVal := .none
  notes : PyVal := .none
  agent_name : PyVal := .none
  tax : PyVal := .none
  discount : PyVal := .none
deriving DecidableEq

/-- Embedding of the local `format_text` helper (pdf_utils.py lines
130–135): `str()`-coerce, and reshape only when rendering Arabic with the
reshaper available. -/
def profText (env : ProfEnv) (isAr : Bool) (v : PyVal) : String :=
  if isAr && env.reshaper then env.shapeFn (pyStr v) else pyStr v

/-- Model of the f-string `f"{currency} {value:,.2f}"` (lines 207–208):
the `,.2f` format spec raises on non-numeric values. -/
def fmtMoney (cur : String) (v : PyVal) : Res String :=
  match v with
  | .num q => .ok (cur ++ " " ++ fmt2 q)
  | .int z => .ok (cur ++ " " ++ fmt2 (z : ℚ))
  | .str _ => .exn .valueError
  | .none => .exn .typeError

/-- One body row of the professional items table (lines 202–209): index,
formatted description, `str(quantity)`, and the two money cells.  The
`description`/`quantity`/`price`/`total` keys are read with defaults —
the `desc`/`qty`/`unit` aliases are never consulted — and the `total`
cell is the stored total (default 0), never recomputed from quantity and
price. -/
def profItemRow (env : ProfEnv) (isAr : Bool) (cur : String) (idx : Nat)
    (it : RawItem) : Res (List String) :=
  match fmtMoney cur (pyGetD it.price (.int 0)) with
  | .exn e => .exn e
  | .ok price =>
    match fmtMoney cur (pyGetD it.total (.int 0)) with
    | .exn e => .exn e
    | .ok total =>
      .ok [natStr idx, profText env isAr (pyGetD it.description (.str "")),
        pyStr (pyGetD it.quantity (.int 0)), price, total]

/-- All body rows, in order. -/
def profItemRows (env : ProfEnv) (isAr : Bool) (cur : String) :
    List RawItem → Nat → Res (List (List String))
  | [], _ => .ok []
  | it :: rest, idx =>
    match profItemRow env isAr cur idx it with
    | .exn e => .exn e
    | .ok r =>
      match profItemRows env isAr cur rest (idx + 1) with
      | .exn e => .exn e
      | .ok rs => .ok (r :: rs)

/-- Python `sum(item.get('total', 0) for item in items)` (line 212):
numeric addition that raises `TypeError` on a non-numeric total. -/
def profSumTotals : List RawItem → Res ℚ
  | [] => .ok 0
  | it :: rest =>
    match (match pyGetD it.total (.int 0) with
      | .int z => Res.ok (z : ℚ)
      | .num q => Res.ok q
      | _ => Res.exn .typeError) with
    | .exn e => .exn e
    | .ok v =>
      match profSumTotals rest with
      | .exn e => .exn e
      | .ok sm => .ok (v + sm)

/-- `subtotal + tax` (line 215): numeric addition with a raw dictionary
value, raising `TypeError` when it is not a number. -/
def profAdd (a : ℚ) (v : PyVal) : Res ℚ :=
  match v with
  | .int z => .ok (a + z)
  | .num q => .ok (a + q)
  | _ => .exn .typeError

/-- `... - discount` (line 215): numeric subtraction with a raw
dictionary value. -/
def profSub (a : ℚ) (v : PyVal) : Res ℚ :=
  match v with
  | .int z => .ok (a - z)
  | .num q => .ok (a - q)
  | _ => .exn .typeError

/-- The structured document `generate_professional_pdf` builds on its
successful path: title, items header+rows, and the two totals lines. -/
structure ProfDoc where
  title : String
  rows : List (List String)
  subtotalLine : String
  grandTotalLine : String
deriving DecidableEq

/-- Output of `generate_professional_pdf`: a built PDF or the error text
produced by either `except` arm. -/
inductive ProfOut where
  | pdf (d : ProfDoc) : ProfOut
  | errText (s : String) : ProfOut
deriving DecidableEq

/-- Modelled from the spec: serialized bytes of the professional PDF
(ReportLab, not in `src/`), PDF-header-prefixed and never empty. -/
def ProfOut.bytes : ProfOut → List Nat
  | .pdf d => strBytes "%PDF-1.4\n" ++ strBytes d.title
      ++ (d.rows.flatten.map strBytes).flatten ++ strBytes d.subtotalLine
      ++ strBytes d.grandTotalLine
  | .errText s => strBytes s

/-- The Arabic title map (pdf_utils.py lines 139–145). -/
def profTitle (env : ProfEnv) (isAr : Bool) (v : PyVal) : String :=
  let t := pyGetD v (.str "Invoice")
  if isAr then
    let mapped : String :=
      if t = .str "Quotation Invoice" then "عرض سعر"
      else if t = .str "Commercial Invoice" then "فاتورة تجارية"
      else if t = .str "Proforma Invoice" then "فاتورة أولية"
      else "فاتورة"
    profText env true (.str mapped)
  else pyStr t

/-- The whole `try` body of `generate_professional_pdf` (lines 69–305). -/
def profBody (env : ProfEnv) (d : ProfInvoice) (lang : String) : Res ProfDoc :=
  if env.reportlab = false then .exn .importError
  else
    match profItemRows env (lang == "ar") (pyStr (pyGetD d.currency (.str "EGP"))) d.items 1 with
    | .exn e => .exn e
    | .ok rows =>
      match profSumTotals d.items with
      | .exn e => .exn e
      | .ok sub =>
        match profAdd sub (pyGetD d.tax (.int 0)) with
        | .exn e => .exn e
        | .ok withTax =>
          match profSub withTax (pyGetD d.discount (.int 0)) with
          | .exn e => .exn e
          | .ok grand =>
            if env.buildRaises then .exn .valueError
            else .ok ⟨profTitle env (lang == "ar") d.invoice_type, rows,
              "Subtotal: " ++ pyStr (pyGetD d.currency (.str "EGP")) ++ " " ++ fmt2 sub,
              "Grand Total: " ++ pyStr (pyGetD d.currency (.str "EGP")) ++ " " ++ fmt2 grand⟩

/-- Embedding of `generate_professional_pdf(invoice_data, language, ...)`
(frontend/utils/pdf_utils.py lines 24–314): the entire body is wrapped in
`try`/`except ImportError`/`except Exception`, each arm returning a
non-empty error message encoded as bytes, so the function always returns
bytes. -/
def generate_professional_pdf (env : ProfEnv) (d : ProfInvoice) (lang : String) : ProfOut :=
  match profBody env d lang with
  | .ok doc => .pdf doc
  | .exn .importError => .errText "PDF generation requires ReportLab: No module named reportlab"
  | .exn _ => .errText "Error generating PDF: exception during generation"

/-! ### Spec-side restatement for the currency claim -/

/-- Spec-side restatement of the currency formatter (the refinement target
for claim C5, following the spec's words): strip any pre-existing
`LE`/`EGP` markers (and surrounding whitespace); when the result — commas
removed — parses as a float, reformat it with thousands separators and
exactly two decimal places; when parsing fails, pass the stripped value
through unformatted. -/
def specCurrency (v : String) : String :=
  let stripped := pyStrip (pyRepl (pyRepl v "LE" "") "EGP" "")
  match parsePyFloat (pyRepl stripped "," "") with
  | some f => fmt2 f
  | none => stripped

/-! ### Concrete fixtures used by counterexamples and witnesses -/

/-- A fully-provisioned environment: every import succeeds, every font
file is present, shaping is the identity, `doc.build` succeeds.  The logo
file is absent (so no image-aspect arithmetic is involved). -/
def envStd : Env :=
  { reportlab := true, platypus := true, hasReshaper := true,
    hasGetDisplay := true, shapeFn := fun s => some s, robotoReg := true,
    robotoBold := true, tajawal := true, logoExists := false, pil := false,
    logoAspect := 1, buildRaises := false, today := "2024-01-01" }

/-- `envStd` with the reshaping capability absent (the
`arabic_reshaper`/`bidi` imports failed). -/
def envNoShape : Env :=
  { envStd with hasReshaper := false, hasGetDisplay := false }

/-- `envStd` with no Roboto files on disk. -/
def envNoRoboto : Env :=
  { envStd with robotoReg := false, robotoBold := false }

/-- The record that crashes `generate_pdf_bytes`: one line item whose
`quantity` is the unparsable string `"abc"` and which carries no `total`,
so line 506 evaluates `float("abc")` outside any `try`. -/
def crashInvoice : InvoiceData :=
  { items := [{ quantity := .str "abc", price := .int 1 }] }

/-- A record with one line item totalling 100 but a caller-supplied
`subtotal` of 999. -/
def trustInvoice : InvoiceData :=
  { subtotal := .int 999, items := [{ total := .int 100 }] }

/-- A record whose `invoice_type` is the integer `5` (a truthy
non-string). -/
def intTitleInvoice : InvoiceData :=
  { invoice_type := .int 5 }

/-- The empty record: every key absent. -/
def emptyInvoice : InvoiceData := {}

/-- `generate_pdf` environment with all three imports available. -/
def slEnvAll : SLEnv :=
  { reportlab := true, reshaperModule := true, bidiModule := true, logoExists := false }

/-- A small valid record for `generate_pdf`. -/
def slSample : SLInvoice :=
  { client_name := .str "ACME",
    items := [({ description := .str "Product A", quantity := .int 2,
                 price := .int 50, total := .int 100 } : RawItem)] }

/-- `generate_professional_pdf` environment with ReportLab available. -/
def profEnvStd : ProfEnv :=
  { reportlab := true, reshaper := false, shapeFn := fun s => s, buildRaises := false }

/-- A line item written with the alias keys `desc`/`qty`/`unit` and no
`total`. -/
def itemAlias : RawItem := { desc := .str "A", qty := .int 2, unit := .int 50 }

/-- The same line item written with the canonical keys
`description`/`quantity`/`price` and no `total`. -/
def itemCanon : RawItem := { description := .str "A", quantity := .int 2, price := .int 50 }

/-- The rational `1234.5`, built with an explicit numerator and
denominator. -/
def q12345 : ℚ := ⟨2469, 2, by decide, by decide⟩

/-- Extract the title-banner text of a built document (element 2 of the
flowable list), to separate the two renderings in claim C9's
counterexample. -/
def bannerTextOf : Res Output → Option PyVal
  | .ok (.pdfDoc doc) =>
    match doc.elements.get? 2 with
    | some (.table _ [[.par t _]]) => some t
    | _ => Option.none
  | _ => Option.none

/-- The normalized form of `trustInvoice`'s single item. -/
def trustItems : List NormItem := [⟨.str "", .str "", .int 0, .int 0, .int 100⟩]

/-- The empty professional-generator record. -/
def profEmpty : ProfInvoice := {}

/-! ## General lemmas: digit strings -/

theorem digitVal_digitChar {d : Nat} (h : d < 10) : digitVal (digitChar d) = d := by
  interval_cases d <;> rfl

theorem isDigitCh_digitChar {d : Nat} (h : d < 10) : isDigitCh (digitChar d) = true := by
  interval_cases d <;> rfl

theorem digitsVal_append_singleton (l : List Char) (c : Char) :
    digitsVal (l ++ [c]) = 10 * digitsVal l + digitVal c := by
  simp [digitsVal, List.foldl_append]

theorem digitsVal_cons0 (l : List Char) : digitsVal ('0' :: l) = digitsVal l := by
  have h0 : 10 * 0 + digitVal '0' = 0 := by decide
  show List.foldl _ (10 * 0 + digitVal '0') l = List.foldl _ 0 l
  rw [h0]

theorem digitsVal_replicate0 (j : Nat) (l : List Char) :
    digitsVal (List.replicate j '0' ++ l) = digitsVal l := by
  induction j with
  | zero => simp
  | succ n ih => rw [List.replicate_succ, List.cons_append, digitsVal_cons0, ih]

theorem natStrAux_val : ∀ fuel n : Nat, n ≤ fuel → digitsVal (natStrAux fuel n) = n := by
  intro fuel
  induction fuel with
  | zero =>
    intro n h
    interval_cases n
    rfl
  | succ f ih =>
    intro n h
    match n with
    | 0 => rfl
    | m + 1 =>
      have h1 : (m + 1) / 10 ≤ f := by
        have := Nat.div_lt_self (Nat.succ_pos m) (by norm_num : 1 < 10)
        omega
      have h2 : (m + 1) % 10 < 10 := Nat.mod_lt _ (by norm_num)
      calc digitsVal (natStrAux (f + 1) (m + 1))
          = digitsVal (natStrAux f ((m + 1) / 10) ++ [digitChar ((m + 1) % 10)]) := rfl
        _ = 10 * digitsVal (natStrAux f ((m + 1) / 10)) + digitVal (digitChar ((m + 1) % 10)) :=
            digitsVal_append_singleton _ _
        _ = 10 * ((m + 1) / 10) + (m + 1) % 10 := by rw [ih _ h1, digitVal_digitChar h2]
        _ = m + 1 := by omega

theorem natStrAux_digits : ∀ fuel n : Nat, ∀ c ∈ natStrAux fuel n, isDigitCh c = true := by
  intro fuel
  induction fuel with
  | zero => intro n c hc; simp [natStrAux] at hc
  | succ f ih =>
    intro n c hc
    match n with
    | 0 => simp [natStrAux] at hc
    | m + 1 =>
      have : c ∈ natStrAux f ((m + 1) / 10) ++ [digitChar ((m + 1) % 10)] := hc
      rcases List.mem_append.1 this with h | h
      · exact ih _ c h
      · have : c = digitChar ((m + 1) % 10) := by simpa using h
        rw [this]
        exact isDigitCh_digitChar (Nat.mod_lt _ (by norm_num))

theorem natStrAux_len : ∀ fuel n k : Nat, n < 10 ^ k → (natStrAux fuel n).length ≤ k := by
  intro fuel
  induction fuel with
  | zero => intro n k _; simp [natStrAux]
  | succ f ih =>
    intro n k h
    match n with
    | 0 => simp [natStrAux]
    | m + 1 =>
      have hk : k ≠ 0 := by
        rintro rfl
        simp at h
      obtain ⟨k2, rfl⟩ : ∃ k2, k = k2 + 1 := ⟨k - 1, by omega⟩
      have hd : (m + 1) / 10 < 10 ^ k2 := by
        rw [Nat.div_lt_iff_lt_mul (by norm_num)]
        calc m + 1 < 10 ^ (k2 + 1) := h
          _ = 10 ^ k2 * 10 := by ring
      have hlen := ih ((m + 1) / 10) k2 hd
      show (natStrAux f ((m + 1) / 10) ++ [digitChar ((m + 1) % 10)]).length ≤ k2 + 1
      rw [List.length_append]
      simp only [List.length_singleton]
      omega

theorem natStr_val (n : Nat) : digitsVal (natStr n).data = n := by
  unfold natStr
  split
  · next h => rw [h]; rfl
  · exact natStrAux_val n n le_rfl

theorem natStr_digits (n : Nat) : ∀ c ∈ (natStr n).data, isDigitCh c = true := by
  unfold natStr
  split
  · intro c hc
    have : c = '0' := by simpa using hc
    rw [this]; rfl
  · exact natStrAux_digits n n

theorem natStr_ne_nil (n : Nat) : (natStr n).data ≠ [] := by
  unfold natStr
  split
  · simp
  · next h =>
    match n, h with
    | m + 1, _ =>
      show natStrAux (m + 1) (m + 1) ≠ []
      simp [natStrAux]

theorem natStr_len {n k : Nat} (hk : 1 ≤ k) (h : n < 10 ^ k) : (natStr n).data.length ≤ k := by
  unfold natStr
  split
  · simpa using hk
  · exact natStrAux_len n n k h

theorem padZeros_val (k n : Nat) : digitsVal (padZeros k n).data = n := by
  show digitsVal (List.replicate _ '0' ++ (natStr n).data) = n
  rw [digitsVal_replicate0, natStr_val]

theorem padZeros_digits (k n : Nat) : ∀ c ∈ (padZeros k n).data, isDigitCh c = true := by
  intro c hc
  rcases List.mem_append.1 hc with h | h
  · have : c = '0' := List.eq_of_mem_replicate h
    rw [this]; rfl
  · exact natStr_digits n c h

theorem padZeros_len {k n : Nat} (hk : 1 ≤ k) (h : n < 10 ^ k) :
    (padZeros k n).data.length = k := by
  have hle := natStr_len hk h
  show (List.replicate _ '0' ++ (natStr n).data).length = k
  rw [List.length_append, List.length_replicate]
  omega

/-! ## General lemmas: takeWhile, dropWhile, filter, replace, strip -/

theorem takeWhile_append_all {α} (p : α → Bool) (l1 l2 : List α)
    (h : ∀ a ∈ l1, p a = true) :
    (l1 ++ l2).takeWhile p = l1 ++ l2.takeWhile p := by
  induction l1 with
  | nil => simp
  | cons a l ih =>
    have ha : p a = true := h a (List.mem_cons_self _ _)
    rw [List.cons_append, List.takeWhile_cons_of_pos ha,
      ih (fun x hx => h x (List.mem_cons_of_mem _ hx))]
    rfl

theorem dropWhile_append_all {α} (p : α → Bool) (l1 l2 : List α)
    (h : ∀ a ∈ l1, p a = true) :
    (l1 ++ l2).dropWhile p = l2.dropWhile p := by
  induction l1 with
  | nil => simp
  | cons a l ih =>
    have ha : p a = true := h a (List.mem_cons_self _ _)
    rw [List.cons_append, List.dropWhile_cons_of_pos ha,
      ih (fun x hx => h x (List.mem_cons_of_mem _ hx))]

theorem dropWhile_eq_self_all {α} (p : α → Bool) (l : List α)
    (h : ∀ a ∈ l, p a = false) : l.dropWhile p = l := by
  cases l with
  | nil => rfl
  | cons a rest =>
    exact List.dropWhile_cons_of_neg (by simp [h a (List.mem_cons_self _ _)])

theorem stripSpaces_all (l : List Char) (h : ∀ c ∈ l, isSpaceCh c = false) :
    stripSpaces l = l := by
  unfold stripSpaces
  rw [dropWhile_eq_self_all _ _ h, dropWhile_eq_self_all, List.reverse_reverse]
  intro a ha
  exact h a (List.mem_reverse.1 ha)

theorem filter_cons_keep {α} (p : α → Bool) (a : α) (l : List α) (h : p a = true) :
    List.filter p (a :: l) = a :: List.filter p l := by
  simp [List.filter_cons, h]

theorem filter_cons_drop {α} (p : α → Bool) (a : α) (l : List α) (h : p a = false) :
    List.filter p (a :: l) = List.filter p l := by
  simp [List.filter_cons, h]

theorem replAux_not_head (p : Char) (pt rep : List Char) :
    ∀ (fuel : Nat) (l : List Char), l.length ≤ fuel → (∀ c ∈ l, c ≠ p) →
      replAux (p :: pt) rep fuel l = l := by
  intro fuel
  induction fuel with
  | zero => intro l _ _; rfl
  | succ f ih =>
    intro l hl hc
    match l with
    | [] => rfl
    | c :: rest =>
      have hcp : c ≠ p := hc c (List.mem_cons_self _ _)
      have hlw : leadsWith (p :: pt) (c :: rest) = false := by
        show (p == c && leadsWith pt rest) = false
        have : (p == c) = false := beq_eq_false_iff_ne.2 (Ne.symm hcp)
        rw [this, Bool.false_and]
      show replAux (p :: pt) rep (f + 1) (c :: rest) = c :: rest
      rw [replAux, hlw, Bool.and_false, if_neg (by simp)]
      congr 1
      exact ih rest (by simpa using Nat.le_of_succ_le_succ hl)
        (fun x hx => hc x (List.mem_cons_of_mem _ hx))

theorem replChars_not_head (p : Char) (pt rep : List Char) (l : List Char)
    (hc : ∀ c ∈ l, c ≠ p) : replChars (p :: pt) rep l = l :=
  replAux_not_head p pt rep l.length l le_rfl hc

theorem replAux_comma :
    ∀ (fuel : Nat) (l : List Char), l.length ≤ fuel →
      replAux [','] [] fuel l = l.filter (fun c => !(c == ',')) := by
  intro fuel
  induction fuel with
  | zero =>
    intro l hl
    have : l = [] := List.eq_nil_of_length_eq_zero (Nat.le_zero.1 hl)
    rw [this]; rfl
  | succ f ih =>
    intro l hl
    match l with
    | [] => rfl
    | c :: rest =>
      have hrest : rest.length ≤ f := by simpa using Nat.le_of_succ_le_succ hl
      by_cases hc : c = ','
      · subst hc
        show replAux [','] [] (f + 1) (',' :: rest) = _
        rw [replAux]
        have : leadsWith [','] (',' :: rest) = true := by
          show ((',' == ',') && leadsWith [] rest) = true
          rw [beq_self_eq_true]
          rfl
        rw [this]
        simp only [List.isEmpty_cons, Bool.not_false, Bool.true_and, if_true]
        rw [filter_cons_drop _ _ _ (by simp)]
        simpa using ih rest hrest
      · show replAux [','] [] (f + 1) (c :: rest) = _
        rw [replAux]
        have : leadsWith [','] (c :: rest) = false := by
          show ((',' == c) && leadsWith [] rest) = false
          rw [beq_eq_false_iff_ne.2 (Ne.symm hc), Bool.false_and]
        rw [this, Bool.and_false, if_neg (by simp)]
        rw [filter_cons_keep _ _ _ (by simpa using hc)]
        rw [ih rest hrest]

theorem replChars_comma (l : List Char) :
    replChars [','] [] l = l.filter (fun c => !(c == ',')) :=
  replAux_comma l.length l le_rfl

theorem commaRev_filter (l : List Char) : (∀ c ∈ l, c ≠ ',') →
    (commaRev l).filter (fun c => !(c == ',')) = l := by
  induction l using commaRev.induct with
  | case1 a b c d rest ih =>
    intro h
    rw [commaRev]
    rw [filter_cons_keep _ _ _ (by simp [h a (by simp)]),
      filter_cons_keep _ _ _ (by simp [h b (by simp)]),
      filter_cons_keep _ _ _ (by simp [h c (by simp)]),
      filter_cons_drop _ _ _ (by simp)]
    rw [ih (fun x hx => h x (by simp at hx ⊢; tauto))]
  | case2 l hnm =>
    intro h
    match l, hnm with
    | [], _ => rfl
    | [a], _ =>
      show List.filter _ [a] = [a]
      rw [filter_cons_keep _ _ _ (by simp [h a (by simp)])]
      rfl
    | [a, b], _ =>
      show List.filter _ [a, b] = [a, b]
      rw [filter_cons_keep _ _ _ (by simp [h a (by simp)]),
        filter_cons_keep _ _ _ (by simp [h b (by simp)])]
      rfl
    | [a, b, c], _ =>
      show List.filter _ [a, b, c] = [a, b, c]
      rw [filter_cons_keep _ _ _ (by simp [h a (by simp)]),
        filter_cons_keep _ _ _ (by simp [h b (by simp)]),
        filter_cons_keep _ _ _ (by simp [h c (by simp)])]
      rfl
    | a :: b :: c :: d :: rest, hnm => exact absurd rfl (hnm a b c d rest)

theorem commaRev_mem (l : List Char) (c : Char) (h : c ∈ commaRev l) :
    c ∈ l ∨ c = ',' := by
  induction l using commaRev.induct with
  | case1 a b cc d rest ih =>
    rw [commaRev] at h
    simp only [List.mem_cons] at h
    rcases h with h | h | h | h | h
    · left; simp [h]
    · left; simp [h]
    · left; simp [h]
    · right; exact h
    · rcases ih h with h2 | h2
      · left; simp only [List.mem_cons] at h2 ⊢; tauto
      · right; exact h2
  | case2 l hnm =>
    match l, hnm with
    | [], _ =>
      rw [show commaRev [] = [] from rfl] at h
      simp at h
    | [a], _ =>
      left
      rw [show commaRev [a] = [a] from rfl] at h
      exact h
    | [a, b], _ =>
      left
      rw [show commaRev [a, b] = [a, b] from rfl] at h
      exact h
    | [a, b, cc], _ =>
      left
      rw [show commaRev [a, b, cc] = [a, b, cc] from rfl] at h
      exact h
    | a :: b :: cc :: d :: rest, hnm => exact absurd rfl (hnm a b cc d rest)

theorem commaGroup_filter (l : List Char) (h : ∀ c ∈ l, c ≠ ',') :
    (commaGroup l).filter (fun c => !(c == ',')) = l := by
  unfold commaGroup
  rw [List.filter_reverse, commaRev_filter _ (fun x hx => h x (List.mem_reverse.1 hx)),
    List.reverse_reverse]

theorem commaGroup_mem (l : List Char) (c : Char) (h : c ∈ commaGroup l) :
    c ∈ l ∨ c = ',' := by
  unfold commaGroup at h
  have := commaRev_mem l.reverse c (List.mem_reverse.1 h)
  simpa using this

/-! ## General lemmas: parsing the formatted strings back -/

theorem takeWhile_eq_self_all {α} (p : α → Bool) (l : List α)
    (h : ∀ a ∈ l, p a = true) : l.takeWhile p = l := by
  induction l with
  | nil => rfl
  | cons a rest ih =>
    rw [List.takeWhile_cons_of_pos (h a (List.mem_cons_self _ _)),
      ih (fun x hx => h x (List.mem_cons_of_mem _ hx))]

theorem dropWhile_eq_nil_all {α} (p : α → Bool) (l : List α)
    (h : ∀ a ∈ l, p a = true) : l.dropWhile p = [] := by
  induction l with
  | nil => rfl
  | cons a rest ih =>
    rw [List.dropWhile_cons_of_pos (h a (List.mem_cons_self _ _)),
      ih (fun x hx => h x (List.mem_cons_of_mem _ hx))]

theorem parseUnsigned_decimal (a b k : Nat) (hk : 1 ≤ k) (hb : b < 10 ^ k) :
    parseUnsignedChars ((natStr a).data ++ '.' :: (padZeros k b).data)
      = some ((a : ℚ) + (b : ℚ) / (10 : ℚ) ^ k) := by
  have hA := natStr_digits a
  have hB := padZeros_digits k b
  have htw : ((natStr a).data ++ '.' :: (padZeros k b).data).takeWhile isDigitCh
      = (natStr a).data := by
    rw [takeWhile_append_all _ _ _ hA,
      List.takeWhile_cons_of_neg (by simp [isDigitCh]), List.append_nil]
  have hdw : ((natStr a).data ++ '.' :: (padZeros k b).data).dropWhile isDigitCh
      = '.' :: (padZeros k b).data := by
    rw [dropWhile_append_all _ _ _ hA,
      List.dropWhile_cons_of_neg (by simp [isDigitCh])]
  have htwB : ((padZeros k b).data).takeWhile isDigitCh = (padZeros k b).data :=
    takeWhile_eq_self_all _ _ hB
  have hdwB : ((padZeros k b).data).dropWhile isDigitCh = [] :=
    dropWhile_eq_nil_all _ _ hB
  have hne : ((natStr a).data).isEmpty = false := by
    simp [List.isEmpty_eq_false, natStr_ne_nil a]
  unfold parseUnsignedChars
  simp only [hdw, htw, htwB, hdwB, hne, Bool.false_and]
  rw [if_neg (by simp)]
  rw [natStr_val, padZeros_val, padZeros_len hk hb]
  rfl

theorem parseSigned_digit_head {c : Char} (r : List Char) (hd : isDigitCh c = true) :
    parseSignedChars (c :: r) = parseUnsignedChars (c :: r) := by
  have h1 : c ≠ '+' := by rintro rfl; exact absurd hd (by decide)
  have h2 : c ≠ '-' := by rintro rfl; exact absurd hd (by decide)
  unfold parseSignedChars
  split
  · next heq => exact absurd (List.cons.inj heq).1 h1
  · next heq => exact absurd (List.cons.inj heq).1 h2
  · rfl

/-- The characters that can occur in a formatted amount. -/
def numCh (c : Char) : Bool := isDigitCh c || c == ',' || c == '.' || c == '-'

theorem fmtN_data (m : Nat) :
    (fmtN m).data = commaGroup (natStr (m / 100)).data ++ '.' :: (padZeros 2 (m % 100)).data := by
  show ((String.mk (commaGroup (natStr (m / 100)).data) ++ "." ++ padZeros 2 (m % 100)).data) = _
  rw [String.data_append, String.data_append]
  rw [List.append_assoc]
  rfl

theorem fmtN_chars (m : Nat) : ∀ c ∈ (fmtN m).data, numCh c = true := by
  intro c hc
  rw [fmtN_data] at hc
  rcases List.mem_append.1 hc with h | h
  · rcases commaGroup_mem _ _ h with h2 | h2
    · simp [numCh, natStr_digits _ c h2]
    · simp [numCh, h2]
  · rcases List.mem_cons.1 h with h2 | h2
    · simp [numCh, h2]
    · simp [numCh, padZeros_digits _ _ c h2]

theorem fmt2_chars (q : ℚ) : ∀ c ∈ (fmt2 q).data, numCh c = true := by
  intro c hc
  unfold fmt2 at hc
  split at hc
  · rw [String.data_append] at hc
    rcases List.mem_append.1 hc with h | h
    · have : c = '-' := by simpa using h
      simp [numCh, this]
    · exact fmtN_chars _ c h
  · exact fmtN_chars _ c hc

theorem numCh_not_letter {c : Char} (h : numCh c = true) :
    c ≠ 'L' ∧ c ≠ 'E' ∧ isSpaceCh c = false := by
  refine ⟨fun he => by rw [he] at h; exact absurd h (by decide),
    fun he => by rw [he] at h; exact absurd h (by decide), ?_⟩
  cases hx : isSpaceCh c with
  | false => rfl
  | true =>
    have hsp : ((c = ' ' ∨ c = '\t') ∨ c = '\n') ∨ c = '\r' := by
      simpa [isSpaceCh] using hx
    rcases hsp with ((rfl | rfl) | rfl) | rfl <;> exact absurd h (by decide)

theorem str_mk_data (s : String) : String.mk s.data = s := rfl

theorem cents_intCast_div (z : ℤ) : cents ((z : ℚ) / 100) = z := by
  unfold cents
  have h1 : (z : ℚ) / 100 * 100 + 1 / 2 = 1 / 2 + (z : ℚ) := by
    field_simp
    ring
  rw [h1, Int.floor_add_int]
  norm_num

theorem parseSigned_append_decimal (a b k : Nat) (hk : 1 ≤ k) (hb : b < 10 ^ k) :
    parseSignedChars ((natStr a).data ++ '.' :: (padZeros k b).data)
      = some ((a : ℚ) + (b : ℚ) / (10 : ℚ) ^ k) := by
  obtain ⟨c, cs, hcs⟩ : ∃ c cs, (natStr a).data = c :: cs := by
    rcases hn : (natStr a).data with _ | ⟨c, cs⟩
    · exact absurd hn (natStr_ne_nil a)
    · exact ⟨c, cs, rfl⟩
  have hd : isDigitCh c = true := natStr_digits a c (by rw [hcs]; exact List.mem_cons_self _ _)
  rw [hcs, List.cons_append, parseSigned_digit_head _ hd, ← List.cons_append, ← hcs,
    parseUnsigned_decimal a b k hk hb]

theorem digit_ne_comma {c : Char} (h : isDigitCh c = true) : c ≠ ',' := by
  rintro rfl
  exact absurd h (by decide)

theorem removeCommas_fmtN (m : Nat) :
    (fmtN m).data.filter (fun c => !(c == ',')) =
      (natStr (m / 100)).data ++ '.' :: (padZeros 2 (m % 100)).data := by
  rw [fmtN_data, List.filter_append]
  rw [commaGroup_filter _ (fun c hc => digit_ne_comma (natStr_digits _ c hc))]
  rw [filter_cons_keep _ _ _ (by simp)]
  rw [List.filter_eq_self.2 (fun c hc => by simp [digit_ne_comma (padZeros_digits _ _ c hc)])]

theorem mod100_lt_pow (m : Nat) : m % 100 < 10 ^ 2 := by
  rw [show (10 : ℕ) ^ 2 = 100 from by norm_num]
  exact Nat.mod_lt _ (by norm_num)

theorem parseSigned_fmtN (m : Nat) :
    parseSignedChars ((fmtN m).data.filter (fun c => !(c == ','))) = some ((m : ℚ) / 100) := by
  rw [removeCommas_fmtN,
    parseSigned_append_decimal (m / 100) (m % 100) 2 (by norm_num) (mod100_lt_pow m)]
  congr 1
  have hm0 : 100 * (m / 100) + m % 100 = m := Nat.div_add_mod m 100
  have hm : 100 * ((m / 100 : ℕ) : ℚ) + ((m % 100 : ℕ) : ℚ) = (m : ℚ) := by
    exact_mod_cast congrArg (fun n : ℕ => (n : ℚ)) hm0
  rw [show ((10 : ℚ) ^ 2) = 100 from by norm_num]
  field_simp
  linarith

theorem parseSigned_fmt2 (q : ℚ) :
    parseSignedChars ((fmt2 q).data.filter (fun c => !(c == ',')))
      = some ((cents q : ℚ) / 100) := by
  unfold fmt2
  split
  · next hneg =>
    rw [String.data_append, show ("-" : String).data = ['-'] from rfl]
    rw [show (['-'] ++ (fmtN (cents q).natAbs).data) = '-' :: (fmtN (cents q).natAbs).data
        from rfl]
    rw [filter_cons_keep _ _ _ (by decide)]
    rw [show ∀ r, parseSignedChars ('-' :: r) = (parseUnsignedChars r).map (fun x => -x)
        from fun r => rfl]
    have hu : parseUnsignedChars ((fmtN (cents q).natAbs).data.filter (fun c => !(c == ',')))
        = some (((cents q).natAbs : ℚ) / 100) := by
      have hs := parseSigned_fmtN (cents q).natAbs
      rw [removeCommas_fmtN] at hs ⊢
      rw [parseUnsigned_decimal ((cents q).natAbs / 100) ((cents q).natAbs % 100) 2
        (by norm_num) (mod100_lt_pow _)]
      rw [parseSigned_append_decimal ((cents q).natAbs / 100) ((cents q).natAbs % 100) 2
        (by norm_num) (mod100_lt_pow _)] at hs
      exact hs
    rw [hu]
    simp only [Option.map_some']
    congr 1
    have h1 : (((cents q).natAbs : ℤ)) = -(cents q) := by
      rw [← Int.abs_eq_natAbs]
      exact abs_of_neg hneg
    have habs : ((cents q).natAbs : ℚ) = -((cents q : ℤ) : ℚ) := by
      calc ((cents q).natAbs : ℚ) = (((cents q).natAbs : ℤ) : ℚ) := (Int.cast_natCast _).symm
        _ = ((-(cents q) : ℤ) : ℚ) := by rw [h1]
        _ = -((cents q : ℤ) : ℚ) := by push_cast; ring
    rw [habs]
    ring
  · next hpos =>
    have h0 : 0 ≤ cents q := not_lt.1 hpos
    have hs := parseSigned_fmtN (cents q).toNat
    rw [hs]
    congr 2
    exact_mod_cast Int.toNat_of_nonneg h0

/-- Characters of a plain `digits.digits` decimal string. -/
theorem decimal_chars (a j b : Nat) :
    ∀ c ∈ (natStr a).data ++ '.' :: (padZeros j b).data, numCh c = true := by
  intro c hc
  rcases List.mem_append.1 hc with h | h
  · simp [numCh, natStr_digits _ c h]
  · rcases List.mem_cons.1 h with h2 | h2
    · simp [numCh, h2]
    · simp [numCh, padZeros_digits _ _ c h2]

theorem parsePyFloat_fmt2_nocomma (q : ℚ) :
    parsePyFloat (pyRepl (fmt2 q) "," "") = some ((cents q : ℚ) / 100) := by
  unfold parsePyFloat pyRepl
  rw [show (String.mk (replChars (",").data ("").data (fmt2 q).data)).data
      = replChars (",").data ("").data (fmt2 q).data from rfl]
  rw [show (",").data = [','] from rfl, show ("").data = ([] : List Char) from rfl]
  rw [replChars_comma]
  rw [stripSpaces_all _ (fun c hc =>
    (numCh_not_letter (fmt2_chars q c (List.mem_of_mem_filter hc))).2.2)]
  exact parseSigned_fmt2 q

theorem fmt2_double (q : ℚ) : fmt2 ((cents q : ℚ) / 100) = fmt2 q := by
  unfold fmt2
  rw [cents_intCast_div]

/-! ## Round trip for `str(float)` (non-negative finite decimals) -/

theorem decExpFind_dvd {q : ℚ} {k : Nat} (h : decExpFind q = some k) : q.den ∣ 10 ^ k := by
  have := List.find?_some h
  exact Nat.dvd_of_mod_eq_zero (by simpa using this)

theorem pyStrOfRat_decomp {q : ℚ} {k : Nat} (h : decExpFind q = some k) (hq : 0 ≤ q) :
    ∃ a b j, 1 ≤ j ∧ b < 10 ^ j ∧
      (pyStrOfRat q).data = (natStr a).data ++ '.' :: (padZeros j b).data ∧
      ((a : ℚ) + (b : ℚ) / (10 : ℚ) ^ j) = q := by
  have hdvd : q.den ∣ 10 ^ k := decExpFind_dvd h
  have hdvdZ : ((q.den : ℤ)) ∣ q.num * (10 : ℤ) ^ k := by
    refine Dvd.dvd.mul_left ?_ q.num
    exact_mod_cast Int.natCast_dvd_natCast.2 hdvd
  have hnum : 0 ≤ q.num := Rat.num_nonneg.2 hq
  have hdenQ : ((q.den : ℚ)) ≠ 0 := by
    exact_mod_cast q.den_nz
  have hm : ((q.num * (10 : ℤ) ^ k / (q.den : ℤ) : ℤ) : ℚ) = q * (10 : ℚ) ^ k := by
    have hc := Int.ediv_mul_cancel hdvdZ
    have hc2 : ((q.num * (10 : ℤ) ^ k / (q.den : ℤ) : ℤ) : ℚ) * (q.den : ℚ)
        = (q.num : ℚ) * (10 : ℚ) ^ k := by
      exact_mod_cast congrArg (fun z : ℤ => (z : ℚ)) hc
    have hq2 : (q.num : ℚ) = q * (q.den : ℚ) := by
      have hd := Rat.num_div_den q
      have hd2 : (q.num : ℚ) / (q.den : ℚ) * (q.den : ℚ) = q * (q.den : ℚ) := by rw [hd]
      rwa [div_mul_cancel₀ _ hdenQ] at hd2
    rw [hq2] at hc2
    refine mul_right_cancel₀ hdenQ ?_
    linear_combination hc2
  have hm0 : 0 ≤ q.num * (10 : ℤ) ^ k / (q.den : ℤ) :=
    Int.ediv_nonneg (mul_nonneg hnum (by positivity)) (by positivity)
  have hmabs : (((q.num * (10 : ℤ) ^ k / (q.den : ℤ)).natAbs : ℕ) : ℚ)
      = q * (10 : ℚ) ^ k := by
    have h2 : (((q.num * (10 : ℤ) ^ k / (q.den : ℤ)).natAbs : ℤ) : ℚ)
        = ((q.num * (10 : ℤ) ^ k / (q.den : ℤ) : ℤ) : ℚ) :=
      congrArg (fun z : ℤ => (z : ℚ)) (Int.natAbs_of_nonneg hm0)
    calc (((q.num * (10 : ℤ) ^ k / (q.den : ℤ)).natAbs : ℕ) : ℚ)
        = (((q.num * (10 : ℤ) ^ k / (q.den : ℤ)).natAbs : ℤ) : ℚ) := (Int.cast_natCast _).symm
      _ = ((q.num * (10 : ℤ) ^ k / (q.den : ℤ) : ℤ) : ℚ) := h2
      _ = q * (10 : ℚ) ^ k := hm
  have hnum2 : ¬ q.num < 0 := not_lt.2 hnum
  match k, h, hmabs with
  | 0, h, hmabs =>
    refine ⟨(q.num * (10 : ℤ) ^ 0 / (q.den : ℤ)).natAbs, 0, 1, le_rfl, by norm_num, ?_, ?_⟩
    · unfold pyStrOfRat
      simp only [h]
      rw [if_pos trivial, if_neg hnum2]
      simp only [String.data_append, List.append_assoc, List.nil_append]
      rfl
    · rw [hmabs]
      norm_num
  | k2 + 1, h, hmabs =>
    refine ⟨(q.num * (10 : ℤ) ^ (k2 + 1) / (q.den : ℤ)).natAbs / 10 ^ (k2 + 1),
      (q.num * (10 : ℤ) ^ (k2 + 1) / (q.den : ℤ)).natAbs % 10 ^ (k2 + 1), k2 + 1, by omega,
      Nat.mod_lt _ (by positivity), ?_, ?_⟩
    · unfold pyStrOfRat
      simp only [h]
      rw [if_neg (Nat.succ_ne_zero k2), if_neg hnum2]
      simp only [String.data_append, List.append_assoc, List.nil_append]
      rfl
    · have hsplit : (10 ^ (k2 + 1) : ℕ)
            * ((q.num * (10 : ℤ) ^ (k2 + 1) / (q.den : ℤ)).natAbs / 10 ^ (k2 + 1))
          + (q.num * (10 : ℤ) ^ (k2 + 1) / (q.den : ℤ)).natAbs % 10 ^ (k2 + 1)
          = (q.num * (10 : ℤ) ^ (k2 + 1) / (q.den : ℤ)).natAbs := Nat.div_add_mod _ _
      have hsplitQ := congrArg (fun n : ℕ => (n : ℚ)) hsplit
      push_cast at hsplitQ
      rw [hmabs] at hsplitQ
      have hd : ((10 : ℚ) ^ (k2 + 1)) ≠ 0 := by positivity
      field_simp
      linear_combination hsplitQ
theorem pyStrOfRat_parse {q : ℚ} {k : Nat} (h : decExpFind q = some k) (hq : 0 ≤ q) :
    parsePyFloat (pyStrOfRat q) = some q := by
  obtain ⟨a, b, j, hj, hb, hdata, hval⟩ := pyStrOfRat_decomp h hq
  unfold parsePyFloat
  rw [hdata, stripSpaces_all _ (fun c hc => (numCh_not_letter (decimal_chars a j b c hc)).2.2),
    parseSigned_append_decimal a b j hj hb, hval]

theorem pyStrOfRat_chars {q : ℚ} {k : Nat} (h : decExpFind q = some k) (hq : 0 ≤ q) :
    ∀ c ∈ (pyStrOfRat q).data, numCh c = true := by
  obtain ⟨a, b, j, _, _, hdata, _⟩ := pyStrOfRat_decomp h hq
  rw [hdata]
  exact decimal_chars a j b

theorem decimal_no_comma (a j b : Nat) :
    ∀ c ∈ (natStr a).data ++ '.' :: (padZeros j b).data, c ≠ ',' := by
  intro c hc
  rcases List.mem_append.1 hc with h | h
  · exact digit_ne_comma (natStr_digits _ c h)
  · rcases List.mem_cons.1 h with h2 | h2
    · rw [h2]; decide
    · exact digit_ne_comma (padZeros_digits _ _ c h2)

theorem replChars_LE_once (l : List Char) (h : ∀ c ∈ l, c ≠ 'L') :
    replChars ['L', 'E'] [] ('L' :: 'E' :: l) = l := by
  show replAux ['L', 'E'] [] (l.length + 1 + 1) ('L' :: 'E' :: l) = l
  have hlw : leadsWith ['L', 'E'] ('L' :: 'E' :: l) = true := by
    show (('L' == 'L') && (('E' == 'E') && leadsWith [] l)) = true
    have : leadsWith [] l = true := rfl
    simp [this]
  rw [replAux, hlw]
  rw [if_pos (by simp)]
  show [] ++ replAux ['L', 'E'] [] (l.length + 1) (List.drop 1 ('E' :: l)) = l
  rw [List.nil_append, List.drop_succ_cons, List.drop_zero]
  exact replAux_not_head 'L' ['E'] [] (l.length + 1) l (by omega) h

theorem pyRepl_LE_strip (q : ℚ) : pyRepl ("LE" ++ fmt2 q) "LE" "" = fmt2 q := by
  unfold pyRepl
  have hdata : ("LE" ++ fmt2 q).data = 'L' :: 'E' :: (fmt2 q).data := rfl
  rw [show ("LE" : String).data = ['L', 'E'] from rfl, show ("" : String).data = ([] : List Char)
    from rfl, hdata,
    replChars_LE_once _ (fun c hc => (numCh_not_letter (fmt2_chars q c hc)).1)]

theorem pyRepl_noop_of_chars {s : String} (hL : ∀ c ∈ s.data, numCh c = true) :
    pyRepl (pyRepl s "LE" "") "EGP" "" = s := by
  unfold pyRepl
  rw [show ("LE" : String).data = ['L', 'E'] from rfl, show ("" : String).data = ([] : List Char)
    from rfl, show ("EGP" : String).data = ['E', 'G', 'P'] from rfl]
  rw [replChars_not_head 'L' ['E'] [] s.data (fun c hc => (numCh_not_letter (hL c hc)).1)]
  rw [show (String.mk s.data).data = s.data from rfl]
  rw [replChars_not_head 'E' ['G', 'P'] [] s.data (fun c hc => (numCh_not_letter (hL c hc)).2.1)]

theorem pyStrip_noop_of_chars {s : String} (hL : ∀ c ∈ s.data, numCh c = true) :
    pyStrip s = s := by
  unfold pyStrip
  rw [stripSpaces_all _ (fun c hc => (numCh_not_letter (hL c hc)).2.2)]

theorem stripMarkers_LE_fmt2 (q : ℚ) :
    pyStrip (pyRepl (pyRepl ("LE" ++ fmt2 q) "LE" "") "EGP" "") = fmt2 q := by
  rw [pyRepl_LE_strip]
  have hE : pyRepl (fmt2 q) "EGP" "" = fmt2 q := by
    unfold pyRepl
    rw [show ("EGP" : String).data = ['E', 'G', 'P'] from rfl,
      show ("" : String).data = ([] : List Char) from rfl]
    rw [replChars_not_head 'E' ['G', 'P'] [] _
      (fun c hc => (numCh_not_letter (fmt2_chars q c hc)).2.1)]
  rw [hE]
  exact pyStrip_noop_of_chars (fmt2_chars q)

theorem commaRemoval_noop {s : String} (h : ∀ c ∈ s.data, c ≠ ',') :
    pyRepl s "," "" = s := by
  unfold pyRepl
  rw [show ("," : String).data = [','] from rfl, show ("" : String).data = ([] : List Char)
    from rfl]
  rw [replChars_comma, List.filter_eq_self.2 (fun c hc => by simp [h c hc])]

/-! ## The currency formatter: refinement and double-formatting -/

set_option maxHeartbeats 2000000 in
theorem currency_as_spec (env : Env) (isAr : Bool) (val : PyVal) :
    currency env isAr val =
      if isAr then
        shapeApp env (.str (specCurrency (pyStr val))) true ++ " <font color=\x27#3880fa\x27><b>"
          ++ shapeApp env (.str "LE") true ++ "</b></font>"
      else specCurrency (pyStr val) ++ " <font color=\x27#3880fa\x27><b>LE</b></font>" := by
  cases isAr <;> rfl

theorem specCurrency_LE_fmt2 (q : ℚ) : specCurrency ("LE" ++ fmt2 q) = fmt2 q := by
  simp only [specCurrency]
  rw [stripMarkers_LE_fmt2]
  simp only [parsePyFloat_fmt2_nocomma]
  exact fmt2_double q

theorem pyStrOfRat_no_comma {q : ℚ} {k : Nat} (h : decExpFind q = some k) (hq : 0 ≤ q) :
    ∀ c ∈ (pyStrOfRat q).data, c ≠ ',' := by
  obtain ⟨a, b, j, _, _, hdata, _⟩ := pyStrOfRat_decomp h hq
  rw [hdata]
  exact decimal_no_comma a j b

theorem specCurrency_pyStrOfRat {q : ℚ} {k : Nat} (h : decExpFind q = some k) (hq : 0 ≤ q) :
    specCurrency (pyStrOfRat q) = fmt2 q := by
  simp only [specCurrency]
  rw [pyRepl_noop_of_chars (pyStrOfRat_chars h hq),
    pyStrip_noop_of_chars (pyStrOfRat_chars h hq),
    commaRemoval_noop (pyStrOfRat_no_comma h hq)]
  simp only [pyStrOfRat_parse h hq]

theorem currency_double (env : Env) (isAr : Bool) {q : ℚ} {k : Nat}
    (h : decExpFind q = some k) (hq : 0 ≤ q) :
    currency env isAr (.str ("LE" ++ fmt2 q)) = currency env isAr (.num q) := by
  rw [currency_as_spec, currency_as_spec]
  rw [show pyStr (.str ("LE" ++ fmt2 q)) = "LE" ++ fmt2 q from rfl,
    show pyStr (.num q) = pyStrOfRat q from rfl,
    specCurrency_LE_fmt2, specCurrency_pyStrOfRat h hq]

theorem shapeApp_false (env : Env) (v : PyVal) : shapeApp env v false = pyStr v := rfl

/-- `1234.5` parses back from its text. -/
theorem parse_12345 : parsePyFloat "1234.5" = some ((1234 : ℚ) + (5 : ℚ) / (10 : ℚ) ^ 1) := by
  have hdata : ("1234.5" : String).data
      = (natStr 1234).data ++ '.' :: (padZeros 1 5).data := by decide
  unfold parsePyFloat
  rw [hdata, stripSpaces_all _ (fun c hc => (numCh_not_letter (decimal_chars 1234 1 5 c hc)).2.2)]
  exact parseSigned_append_decimal 1234 5 1 le_rfl (by norm_num)

theorem cents_12345 : cents ((1234 : ℚ) + (5 : ℚ) / (10 : ℚ) ^ 1) = 123450 := by
  unfold cents
  norm_num

theorem fmt2_12345 : fmt2 ((1234 : ℚ) + (5 : ℚ) / (10 : ℚ) ^ 1) = "1,234.50" := by
  unfold fmt2
  rw [cents_12345]
  rw [if_neg (by norm_num)]
  decide

theorem specCurrency_12345 : specCurrency "1234.5" = "1,234.50" := by
  simp only [specCurrency]
  have hch : ∀ c ∈ ("1234.5" : String).data, numCh c = true := by decide
  have hnc : ∀ c ∈ ("1234.5" : String).data, c ≠ ',' := by decide
  rw [pyRepl_noop_of_chars hch, pyStrip_noop_of_chars hch, commaRemoval_noop hnc]
  simp only [parse_12345]
  exact fmt2_12345

/-! ## Byte-level non-emptiness and the successful render shape -/

theorem strBytes_ne_nil {s : String} (h : s.data ≠ []) : strBytes s ≠ [] := by
  simp [strBytes, h]

theorem fallbackText_data_ne (d : InvoiceData) : (fallbackText d).data ≠ [] := by
  unfold fallbackText
  rw [String.data_append]
  exact List.append_ne_nil_of_left_ne_nil (by decide) _

theorem failText_data_ne (d : InvoiceData) : (failText d).data ≠ [] := by
  unfold failText
  rw [String.data_append]
  exact List.append_ne_nil_of_left_ne_nil (by decide) _

theorem output_bytes_pdf_ne (doc : Doc) : (Output.pdfDoc doc).bytes ≠ [] := by
  show strBytes "%PDF-1.4\n" ++ _ ≠ []
  exact List.append_ne_nil_of_left_ne_nil (strBytes_ne_nil (by decide)) _

/-- The successful path of `generate_pdf_bytes`: with ReportLab available,
item normalization succeeding and `doc.build` not raising, the result is
the built document with the selected fonts, the resolved title and the
recomputed totals. -/
theorem gen_ok (env : Env) (d : InvoiceData) (lang : String) (its : List NormItem)
    (h1 : env.reportlab = true) (h2 : env.platypus = true)
    (h3 : env.buildRaises = false) (h4 : normItems d.items = .ok its) :
    generate_pdf_bytes env d lang = .ok (.pdfDoc
      ⟨(selectFont env (lang == "ar")).1, (selectFont env (lang == "ar")).2,
       buildElements env (lang == "ar") (titleExpr env d lang) d its
         (subtotalOf d its) (taxOf d) (discountOf d)
         (subtotalOf d its + taxOf d - discountOf d)⟩) := by
  unfold generate_pdf_bytes
  rw [h1, h2, h4, h3]
  rfl

/-! ## Claim theorems -/

/-- Claim C8: for every string `s`, `_shape_text_for_pdf(s, rtl=False)` in
app.py returns `s` itself, and for every non-string input (numbers,
`None`) it returns `str(x)`: the `rtl=False` path coerces its argument to
a string and otherwise leaves it unchanged. -/
theorem C8_shape_rtl_false :
    (∀ (env : Env) (s : String), shapeApp env (.str s) false = s) ∧
    (∀ (env : Env) (v : PyVal), shapeApp env v false = pyStr v) :=
  ⟨fun _ _ => rfl, fun _ _ => rfl⟩

/-- Claim C4 counterexample: the claim as stated fails for the
`streamlit-invoice-app` copy of `_shape_text_for_pdf`: its
`arabic_reshaper`/`get_display` names are bound only inside
`generate_pdf`'s local scope, so a direct `rtl=True` call raises
`NameError` instead of returning the original string — regardless of
whether the reshaping packages are installed. -/
theorem C4_counterexample : shapeSL (.str "hello") true = .exn .nameError := rfl

/-- Claim C4 (amended): the app.py `_shape_text_for_pdf` does fail soft —
when the reshaping/bidi capability is unavailable (either optional import
missing), shaping with `rtl=True` returns the original string unchanged
instead of raising. -/
theorem C4_shape_soft_fail (env : Env) (s : String)
    (h : env.hasReshaper = false ∨ env.hasGetDisplay = false) :
    shapeApp env (.str s) true = s := by
  unfold shapeApp
  rcases h with h | h
  · rw [h]
    rfl
  · rw [h, Bool.and_false]
    rfl

/-- Witness for C4: with the reshaper imports unavailable the shaping
helper returns its input. -/
theorem C4_shape_soft_fail_witness : shapeApp envNoShape (.str "abc") true = "abc" :=
  C4_shape_soft_fail envNoShape "abc" (Or.inl rfl)

/-- Claim C5: the currency formatter strips pre-existing `LE`/`EGP`
markers (normalizing whitespace); when the stripped, comma-free value
parses as a float it is reformatted with thousands separators and exactly
two decimal places, and otherwise the stripped value passes through
unformatted — stated as a refinement against the spec-side
`specCurrency` — and `1234.5` renders as `"1,234.50"`. -/
theorem C5_currency_formats :
    (∀ (env : Env) (v : PyVal),
      currency env false v
        = specCurrency (pyStr v) ++ " <font color=\x27#3880fa\x27><b>LE</b></font>") ∧
    specCurrency "1234.5" = "1,234.50" ∧
    (∀ env : Env, currency env false (.str "1234.5")
      = "1,234.50 <font color=\x27#3880fa\x27><b>LE</b></font>") := by
  refine ⟨fun env v => currency_as_spec env false v, specCurrency_12345, fun env => ?_⟩
  rw [currency_as_spec]
  rw [show pyStr (.str "1234.5") = "1234.5" from rfl, specCurrency_12345]
  rfl

/-- Claim C10: for every non-negative (finite-decimal) amount `q`, the
totals dict entry `f"LE{q:,.2f}"` passed through `currency` a second time
renders exactly as `currency` applied to the number directly: the
formatter strips the `LE` marker and re-parses the comma-separated
number, so double formatting does not change the rendered totals. -/
theorem C10_double_format (env : Env) (isAr : Bool) (q : ℚ) (k : Nat)
    (hq : 0 ≤ q) (hk : decExpFind q = some k) :
    currency env isAr (.str ("LE" ++ fmt2 q)) = currency env isAr (.num q) :=
  currency_double env isAr hk hq

/-- Witness for C10 at `q = 1234.5`. -/
theorem C10_double_format_witness :
    0 ≤ q12345 ∧ decExpFind q12345 = some 1 ∧
    currency envStd false (.str ("LE" ++ fmt2 q12345))
      = currency envStd false (.num q12345) := by
  have h0 : 0 ≤ q12345 := Rat.num_nonneg.1 (by decide)
  exact ⟨h0, by decide, C10_double_format envStd false q12345 1 h0 (by decide)⟩

/-- Claim C1 (code bug): `generate_pdf_bytes` is documented to always
return bytes, but with every library available the record
`{"items": [{"quantity": "abc", "price": 1}]}` raises an uncaught
`ValueError`: line 506 of app.py evaluates `float(qty or 0)` outside any
`try` block when the item has no truthy `total`. -/
theorem C1_exception_escapes :
    generate_pdf_bytes envStd crashInvoice "en" = .exn .valueError := rfl

/-- Claim C7: font selection is a single whole-document choice per render
call, with the ordered fallback Roboto (both files on disk) → Tajawal (for
Arabic, when its file exists) → Helvetica. -/
theorem C7_font_fallback (env : Env) (d : InvoiceData) (lang : String) (its : List NormItem)
    (h1 : env.reportlab = true) (h2 : env.platypus = true)
    (h3 : env.buildRaises = false) (h4 : normItems d.items = .ok its) :
    ∃ doc : Doc,
      generate_pdf_bytes env d lang = .ok (.pdfDoc doc) ∧
      (doc.font, doc.fontB) = selectFont env (lang == "ar") ∧
      (env.robotoReg = true ∧ env.robotoBold = true →
        doc.font = "Roboto" ∧ doc.fontB = "Roboto-Bold") ∧
      (¬(env.robotoReg = true ∧ env.robotoBold = true) → lang = "ar" → env.tajawal = true →
        doc.font = "Tajawal" ∧ doc.fontB = "Tajawal") ∧
      (¬(env.robotoReg = true ∧ env.robotoBold = true) → ¬(lang = "ar" ∧ env.tajawal = true) →
        doc.font = "Helvetica" ∧ doc.fontB = "Helvetica-Bold") := by
  refine ⟨_, gen_ok env d lang its h1 h2 h3 h4, rfl, ?_, ?_, ?_⟩
  · rintro ⟨hr, hb⟩
    show ((selectFont env (lang == "ar")).1 = _) ∧ ((selectFont env (lang == "ar")).2 = _)
    unfold selectFont
    rw [hr, hb]
    exact ⟨rfl, rfl⟩
  · intro hnr har ht
    have hand : (env.robotoReg && env.robotoBold) = false := by
      cases hx : env.robotoReg <;> cases hy : env.robotoBold <;> simp_all
    show ((selectFont env (lang == "ar")).1 = _) ∧ ((selectFont env (lang == "ar")).2 = _)
    unfold selectFont
    rw [hand, har, ht]
    exact ⟨rfl, rfl⟩
  · intro hnr hnt
    have hand : (env.robotoReg && env.robotoBold) = false := by
      cases hx : env.robotoReg <;> cases hy : env.robotoBold <;> simp_all
    have hand2 : ((lang == "ar") && env.tajawal) = false := by
      cases hx : (lang == "ar") with
      | false => rw [Bool.false_and]
      | true =>
        cases hy : env.tajawal with
        | false => rw [Bool.and_false]
        | true => exact absurd ⟨by simpa using hx, hy⟩ hnt
    show ((selectFont env (lang == "ar")).1 = _) ∧ ((selectFont env (lang == "ar")).2 = _)
    unfold selectFont
    rw [hand, hand2]
    exact ⟨rfl, rfl⟩

/-- Witness for C7: with both Roboto files present the rendered document
uses Roboto/Roboto-Bold. -/
theorem C7_font_fallback_witness :
    ∃ doc : Doc, generate_pdf_bytes envStd emptyInvoice "en" = .ok (.pdfDoc doc) ∧
      doc.font = "Roboto" ∧ doc.fontB = "Roboto-Bold" := by
  obtain ⟨doc, hgen, _, hrob, _, _⟩ :=
    C7_font_fallback envStd emptyInvoice "en" [] rfl rfl rfl rfl
  exact ⟨doc, hgen, hrob ⟨rfl, rfl⟩⟩

/-- Claim C2 counterexample: with one line item totalling 100 and a
caller-supplied `subtotal` of 999, the renderer trusts the caller's
subtotal over the item sum — so `subtotal` is trusted blindly from
caller-supplied totals even when line items are present, contrary to the
claim. -/
theorem C2_counterexample :
    normItems trustInvoice.items = .ok trustItems ∧
    subtotalOf trustInvoice trustItems = 999 ∧
    sumItemTotals trustItems = .ok 100 ∧
    trustInvoice.items ≠ [] ∧ (999 : ℚ) ≠ 100 := by
  refine ⟨rfl, ?_, ?_, by simp [trustInvoice], by norm_num⟩
  · have h1 : subtotalOf trustInvoice trustItems = ((999 : ℤ) : ℚ) := rfl
    rw [h1]
    norm_num
  · have h1 : sumItemTotals trustItems = .ok (((100 : ℤ) : ℚ) + 0) := rfl
    rw [h1]
    exact congrArg Res.ok (by norm_num)

/-- Claim C2 (amended): the rendered net-total cell always shows the
recomputed `subtotal + tax - discount` (doubly formatted through
`currency`); tax and discount default to zero when absent or unparsable;
and when the caller supplies no `subtotal`, the subtotal is the item sum.
However — per the counterexample — a truthy parsable caller `subtotal`
field is preferred over the item sum. -/
theorem C2_net_total (env : Env) (d : InvoiceData) (lang : String) (its : List NormItem)
    (h4 : normItems d.items = .ok its) :
    (d.tax = .none → taxOf d = 0) ∧
    (∀ s : String, d.tax = .str s → parsePyFloat s = none → taxOf d = 0) ∧
    (d.discount = .none → discountOf d = 0) ∧
    (∀ s : String, d.discount = .str s → parsePyFloat s = none → discountOf d = 0) ∧
    (∀ q : ℚ, d.subtotal = .none → sumItemTotals its = .ok q → subtotalOf d its = q) ∧
    (env.reportlab = true → env.platypus = true → env.buildRaises = false →
      ∃ doc : Doc, generate_pdf_bytes env d lang = .ok (.pdfDoc doc) ∧
        doc.elements.get? 10
          = some (netTableElem env (lang == "ar")
              (subtotalOf d its + taxOf d - discountOf d))) := by
  refine ⟨?_, ?_, ?_, ?_, ?_, ?_⟩
  · intro h
    unfold taxOf
    rw [h]
    show ((0 : ℤ) : ℚ) = 0
    norm_num
  · intro s hs hp
    by_cases he : s = ""
    · subst he
      unfold taxOf
      rw [hs]
      show ((0 : ℤ) : ℚ) = 0
      norm_num
    · have hie : s.isEmpty = false := by
        cases hx : s.isEmpty
        · rfl
        · exact absurd ((String.isEmpty_iff s).1 hx) he
      have htr : truthy (PyVal.str s) = true := by
        simp [truthy, hie]
      have hv : pyOr (pyGetD (PyVal.str s) (.int 0)) (.int 0) = .str s := by
        show (if truthy (PyVal.str s) = true then PyVal.str s else PyVal.int 0) = PyVal.str s
        rw [if_pos htr]
      unfold taxOf
      rw [hs, hv]
      simp only [pyFloatRes]
      rw [hp]
  · intro h
    unfold discountOf
    rw [h]
    show ((0 : ℤ) : ℚ) = 0
    norm_num
  · intro s hs hp
    by_cases he : s = ""
    · subst he
      unfold discountOf
      rw [hs]
      show ((0 : ℤ) : ℚ) = 0
      norm_num
    · have hie : s.isEmpty = false := by
        cases hx : s.isEmpty
        · rfl
        · exact absurd ((String.isEmpty_iff s).1 hx) he
      have htr : truthy (PyVal.str s) = true := by
        simp [truthy, hie]
      have hv : pyOr (pyGetD (PyVal.str s) (.int 0)) (.int 0) = .str s := by
        show (if truthy (PyVal.str s) = true then PyVal.str s else PyVal.int 0) = PyVal.str s
        rw [if_pos htr]
      unfold discountOf
      rw [hs, hv]
      simp only [pyFloatRes]
      rw [hp]
  · intro q h0 hsum
    unfold subtotalOf
    rw [h0]
    show (match (if truthy PyVal.none = true then pyFloatRes PyVal.none
        else sumItemTotals its) with
      | .ok s => s
      | .exn _ => _) = q
    rw [if_neg (by decide), hsum]
  · intro h1 h2 h3
    exact ⟨_, gen_ok env d lang its h1 h2 h3 h4, rfl⟩

/-- Witness for C2: the absent tax defaults to zero and the net-total
cell of the rendered document carries the recomputed total. -/
theorem C2_net_total_witness :
    taxOf trustInvoice = 0 ∧
    (∃ doc : Doc, generate_pdf_bytes envStd trustInvoice "en" = .ok (.pdfDoc doc) ∧
      doc.elements.get? 10 = some (netTableElem envStd (("en" : String) == "ar")
        (subtotalOf trustInvoice trustItems + taxOf trustInvoice
          - discountOf trustInvoice))) := by
  have h := C2_net_total envStd trustInvoice "en" trustItems rfl
  exact ⟨h.1 rfl, h.2.2.2.2.2 rfl rfl rfl⟩

/-- Claim C9 counterexample: the claim fails for records whose
`invoice_type` is a truthy non-string.  With `invoice_type = 5`, line 487
(`title = inv_title if out_lang == 'en' else local_s(inv_title)`) passes
the raw integer through for `"en"` but the string `"5"` for `"fr"`, so
the two renderings differ. -/
theorem C9_counterexample :
    generate_pdf_bytes envStd intTitleInvoice "fr"
      ≠ generate_pdf_bytes envStd intTitleInvoice "en" := by
  intro h
  have h2 := congrArg bannerTextOf h
  rw [show bannerTextOf (generate_pdf_bytes envStd intTitleInvoice "fr")
        = some (.str "5") from rfl,
    show bannerTextOf (generate_pdf_bytes envStd intTitleInvoice "en")
        = some (.int 5) from rfl] at h2
  exact absurd h2 (by decide)

/-- Claim C9 (amended): for every language other than `"ar"` and `"en"`,
`generate_pdf_bytes` produces exactly the English rendering, provided the
record's `invoice_type` is absent, falsy, or a string (every language
branch tests only `== 'ar'`, except line 487's `== 'en'`, whose only
effect is to `str`-coerce a truthy non-string title). -/
theorem C9_unknown_lang_is_english (env : Env) (d : InvoiceData) (lang : String)
    (h1 : lang ≠ "ar") (h2 : lang ≠ "en")
    (h3 : truthy d.invoice_type = true → ∃ s, d.invoice_type = .str s) :
    generate_pdf_bytes env d lang = generate_pdf_bytes env d "en" := by
  have har : (lang == "ar") = false := by
    rcases hx : lang == "ar" with _ | _
    · rfl
    · exact absurd (by simpa using hx) h1
  have hen : (lang == "en") = false := by
    rcases hx : lang == "en" with _ | _
    · rfl
    · exact absurd (by simpa using hx) h2
  have htitle : titleExpr env d lang = titleExpr env d "en" := by
    unfold titleExpr
    rw [har, hen, show (("en" : String) == "ar") = false from rfl,
      show (("en" : String) == "en") = true from rfl]
    rw [shapeApp_false]
    unfold pyOr
    cases ht : truthy d.invoice_type
    · rw [if_neg (by simp [ht])]
      rfl
    · obtain ⟨s2, hs⟩ := h3 ht
      rw [hs]
      rfl
  unfold generate_pdf_bytes
  rw [har, htitle, show (("en" : String) == "ar") = false from rfl]

/-- Witness for C9's amended theorem: an unknown language code renders
identically to English on a record with no `invoice_type`. -/
theorem C9_unknown_lang_witness :
    generate_pdf_bytes envStd emptyInvoice "fr" = generate_pdf_bytes envStd emptyInvoice "en" :=
  C9_unknown_lang_is_english envStd emptyInvoice "fr" (by decide) (by decide)
    (fun ht => absurd ht (by decide))

/-- Claim C6 counterexample: the claim fails for
`generate_professional_pdf`'s item handling: an item written with the
`desc`/`qty`/`unit` aliases renders with an empty description, quantity 0
and totals 0 (the aliases are never read), and even with canonical keys a
missing `total` renders as `EGP 0.00` rather than the computed
`quantity × unit_price = 100`. -/
theorem C6_counterexample :
    profItemRow profEnvStd false "EGP" 1 itemAlias
        = .ok ["1", "", "0", "EGP 0.00", "EGP 0.00"] ∧
    profItemRow profEnvStd false "EGP" 1 itemCanon
        = .ok ["1", "A", "2", "EGP 50.00", "EGP 0.00"] ∧
    profItemRow profEnvStd false "EGP" 1 itemAlias
        ≠ profItemRow profEnvStd false "EGP" 1 itemCanon ∧
    fmt2 ((2 : ℚ) * 50) = "100.00" ∧ ("EGP 0.00" : String) ≠ "EGP 100.00" := by
  have h0 : cents ((0 : ℤ) : ℚ) = 0 := by
    unfold cents
    push_cast
    norm_num
  have h50 : cents ((50 : ℤ) : ℚ) = 5000 := by
    unfold cents
    push_cast
    norm_num
  have h100 : cents ((2 : ℚ) * 50) = 10000 := by
    unfold cents
    norm_num
  have hf0 : fmt2 ((0 : ℤ) : ℚ) = "0.00" := by
    unfold fmt2
    rw [h0]
    decide
  have hf50 : fmt2 ((50 : ℤ) : ℚ) = "50.00" := by
    unfold fmt2
    rw [h50]
    rw [if_neg (by norm_num)]
    decide
  have hA : profItemRow profEnvStd false "EGP" 1 itemAlias
      = .ok ["1", "", "0", "EGP 0.00", "EGP 0.00"] := by
    show Res.ok [natStr 1, profText profEnvStd false (.str ""), pyStr (.int 0),
      "EGP" ++ " " ++ fmt2 ((0 : ℤ) : ℚ), "EGP" ++ " " ++ fmt2 ((0 : ℤ) : ℚ)] = _
    rw [hf0]
    decide
  have hC : profItemRow profEnvStd false "EGP" 1 itemCanon
      = .ok ["1", "A", "2", "EGP 50.00", "EGP 0.00"] := by
    show Res.ok [natStr 1, profText profEnvStd false (.str "A"), pyStr (.int 2),
      "EGP" ++ " " ++ fmt2 ((50 : ℤ) : ℚ), "EGP" ++ " " ++ fmt2 ((0 : ℤ) : ℚ)] = _
    rw [hf0, hf50]
    decide
  refine ⟨hA, hC, ?_, ?_, by decide⟩
  · rw [hA, hC]
    decide
  · unfold fmt2
    rw [h100]
    rw [if_neg (by norm_num)]
    decide

/-- Claim C6 (amended): the app.py item-normalization loop does accept
both field-naming conventions (`description`/`desc`, `quantity`/`qty`,
`price`/`unit`) and, when no truthy `total` is supplied, computes the line
total as `float(quantity) * float(unit_price)`; the frontend professional
builder, by contrast, reads only the canonical keys and never recomputes
(see the counterexample). -/
theorem C6_norm_item (it : RawItem) (q u : ℚ)
    (ht : truthy it.total = false)
    (hq : pyFloatRes (pyOr (pyOr it.quantity (pyOr it.qty (.int 0))) (.int 0)) = .ok q)
    (hu : pyFloatRes (pyOr (pyOr it.price (pyOr it.unit (.int 0))) (.int 0)) = .ok u) :
    (∀ vd vq vp : PyVal,
        normItem { description := vd, quantity := vq, price := vp }
          = normItem { desc := vd, qty := vq, unit := vp }) ∧
    normItem it = .ok ⟨pyOr it.code (.str ""),
        pyOr it.description (pyOr it.desc (.str "")),
        pyOr it.quantity (pyOr it.qty (.int 0)),
        pyOr it.price (pyOr it.unit (.int 0)), .num (q * u)⟩ := by
  refine ⟨fun vd vq vp => rfl, ?_⟩
  have hstep : normItem it
      = match pyFloatRes (pyOr (pyOr it.quantity (pyOr it.qty (.int 0))) (.int 0)) with
        | .exn e => .exn e
        | .ok qv =>
          match pyFloatRes (pyOr (pyOr it.price (pyOr it.unit (.int 0))) (.int 0)) with
          | .exn e => .exn e
          | .ok uv => .ok ⟨pyOr it.code (.str ""),
              pyOr it.description (pyOr it.desc (.str "")),
              pyOr it.quantity (pyOr it.qty (.int 0)),
              pyOr it.price (pyOr it.unit (.int 0)), .num (qv * uv)⟩ := by
    unfold normItem
    rw [ht]
    rfl
  rw [hstep]
  simp only [hq, hu]

/-- Concrete instantiation of `C6_norm_item` at `itemCanon`
(`quantity = 2`, `price = 50`, no `total`). -/
theorem C6_norm_item_witness :
    truthy itemCanon.total = false ∧
    normItem itemCanon
      = .ok ⟨.str "", .str "A", .int 2, .int 50,
          .num (((2 : ℤ) : ℚ) * ((50 : ℤ) : ℚ))⟩ :=
  ⟨rfl, (C6_norm_item itemCanon ((2 : ℤ) : ℚ) ((50 : ℤ) : ℚ) rfl rfl rfl).2⟩

/-! ## Non-emptiness lemmas for claim C3 -/

theorem append_ne_nil_left {α : Type} (a b : List α) (h : a ≠ []) : a ++ b ≠ [] := by
  intro hab
  exact h (List.append_eq_nil.mp hab).1

theorem resMapList_ok {α β : Type} (f : α → Res β) (g : α → β)
    (hf : ∀ a, f a = .ok (g a)) (l : List α) :
    resMapList f l = .ok (l.map g) := by
  induction l with
  | nil => rfl
  | cons a rest ih => simp only [resMapList, hf a, ih, List.map_cons]

theorem slBody_false (d : SLInvoice) : ∃ lines, slBody d false = .ok lines := by
  unfold slBody
  rw [resMapList_ok (fun s => shapeSL (.str s) false) (fun s => pyStr (.str s)) (fun _ => rfl),
      resMapList_ok (fun it => slItemLine it false)
        (fun it => pyStr (pyOr it.description (.str "")) ++ " | "
          ++ pyStr (pyGetD it.quantity (.str "")) ++ " | "
          ++ pyStr (pyGetD it.price (.str "")) ++ " | " ++ pyStr (pyGetD it.total (.str "")))
        (fun _ => rfl)]
  exact ⟨_, rfl⟩

theorem slBytes_ne (lines : List String) : slBytes lines ≠ [] := by
  unfold slBytes
  exact append_ne_nil_left _ _ (strBytes_ne_nil (by decide))

theorem profOut_bytes_ne (env : ProfEnv) (d : ProfInvoice) (lang : String) :
    (generate_professional_pdf env d lang).bytes ≠ [] := by
  unfold generate_professional_pdf
  cases hb : profBody env d lang with
  | ok doc =>
    show strBytes "%PDF-1.4\n" ++ strBytes doc.title
        ++ (doc.rows.flatten.map strBytes).flatten ++ strBytes doc.subtotalLine
        ++ strBytes doc.grandTotalLine ≠ []
    apply append_ne_nil_left
    apply append_ne_nil_left
    apply append_ne_nil_left
    apply append_ne_nil_left
    exact strBytes_ne_nil (by decide)
  | exn e => cases e <;> exact strBytes_ne_nil (by decide)

/-- Claim C3 counterexample: the claim fails for the streamlit
`generate_pdf` on the Arabic path: for a perfectly valid record, a truthy
`rtl` makes the module-level `_shape_text_for_pdf` raise `NameError`
(`arabic_reshaper` is only imported inside `generate_pdf`), the blanket
`except` swallows it, and the function returns the empty byte string
`b""`. -/
theorem C3_counterexample : generate_pdf slEnvAll slSample true = .ok [] := rfl

/-- Claim C3 (amended): the app.py entry point returns non-empty bytes on
every record whose items normalize without raising (for any language and
any environment); `generate_professional_pdf` always returns non-empty
bytes (its error arms return non-empty messages); and the streamlit
`generate_pdf` returns non-empty bytes when its imports succeed and
`rtl=False` — but not on the Arabic path (see the counterexample). -/
theorem C3_nonempty (env : Env) (d : InvoiceData) (lang : String) (its : List NormItem)
    (penv : ProfEnv) (pd : ProfInvoice) (plang : String)
    (senv : SLEnv) (sd : SLInvoice)
    (h4 : normItems d.items = .ok its)
    (hs1 : senv.reportlab = true) (hs2 : senv.reshaperModule = true)
    (hs3 : senv.bidiModule = true) :
    (∃ out, generate_pdf_bytes env d lang = .ok out ∧ out.bytes ≠ []) ∧
    (generate_professional_pdf penv pd plang).bytes ≠ [] ∧
    (∃ bs, generate_pdf senv sd false = .ok bs ∧ bs ≠ []) := by
  refine ⟨?_, profOut_bytes_ne penv pd plang, ?_⟩
  · by_cases h1 : env.reportlab = false
    · refine ⟨.textBytes (fallbackText d), ?_, strBytes_ne_nil (fallbackText_data_ne d)⟩
      unfold generate_pdf_bytes
      rw [if_pos h1]
    · by_cases h2 : env.platypus = false
      · refine ⟨.textBytes (fallbackText d), ?_, strBytes_ne_nil (fallbackText_data_ne d)⟩
        unfold generate_pdf_bytes
        rw [if_neg h1, if_pos h2]
      · by_cases h3 : env.buildRaises = true
        · refine ⟨.textBytes (failText d), ?_, strBytes_ne_nil (failText_data_ne d)⟩
          unfold generate_pdf_bytes
          rw [if_neg h1, if_neg h2]
          simp only [h4]
          rw [h3]
          rfl
        · have h1b : env.reportlab = true := by
            cases hx : env.reportlab
            · exact absurd hx h1
            · rfl
          have h2b : env.platypus = true := by
            cases hx : env.platypus
            · exact absurd hx h2
            · rfl
          have h3b : env.buildRaises = false := by
            cases hx : env.buildRaises
            · rfl
            · exact absurd hx h3
          exact ⟨_, gen_ok env d lang its h1b h2b h3b h4, output_bytes_pdf_ne _⟩
  · obtain ⟨lines, hl⟩ := slBody_false sd
    refine ⟨slBytes lines, ?_, slBytes_ne lines⟩
    unfold generate_pdf
    rw [hs1, hs2, hs3]
    simp only [hl]
    rfl

/-- Concrete instantiation of `C3_nonempty`: the standard environments,
the empty app.py record, the empty professional record, and the sample
streamlit record. -/
theorem C3_nonempty_witness :
    (∃ out, generate_pdf_bytes envStd emptyInvoice "en" = .ok out ∧ out.bytes ≠ []) ∧
    (generate_professional_pdf profEnvStd profEmpty "en").bytes ≠ [] ∧
    (∃ bs, generate_pdf slEnvAll slSample false = .ok bs ∧ bs ≠ []) :=
  C3_nonempty envStd emptyInvoice "en" [] profEnvStd profEmpty "en" slEnvAll slSample
    rfl rfl rfl rfl

end HEO
